import Mathlib

/-!
# Verification of `DecorationAddon`
  (src/vs/workbench/contrib/terminal/browser/xterm/decorationAddon.ts)

A shallow embedding of the terminal command-decoration addon.  The mutable
fields of the `DecorationAddon` class become an explicit `AddonState` record;
each method becomes a state-transition function.  Host objects that the addon
merely holds handles to (xterm `IDecoration`s, event subscriptions) are kept in
explicit stores inside the state, keyed by freshly allocated numeric ids, so
that `dispose` and the `onDispose`/`onRender` callbacks can be replayed.
Asynchronous render callbacks are modelled as separate `renderDecoration`
transitions.  Exceptions (`throw new Error(...)`) become `Except String`.
JS `Map` (insertion-ordered, keyed) becomes an association list with a key
lookup; numbers that the code only compares for truthiness keep their types
(`Option Int` for `exitCode`); configuration font metrics become `ℚ`.
-/

set_option linter.unusedVariables false

namespace DecorationAddon

/-- `IGenericMarkProperties` (only the field the addon reads). -/
structure GenericMarkProperties where
  hoverMessage : Option String
  deriving Repr, DecidableEq

/-- `ITerminalCommand` (the fields `DecorationAddon` reads). `marker` is the
id of the host marker when present; `hasOutput` is the result of `hasOutput()`. -/
structure TerminalCommand where
  marker : Option Nat
  exitCode : Option Int
  genericMarkProperties : Option GenericMarkProperties
  command : String
  hasOutput : Bool
  deriving Repr, DecidableEq

/-- JS truthiness of an optional string (`!s` is true for `undefined` and `""`). -/
def strFalsy : Option String → Bool
  | none => true
  | some s => s = ""

/-- JS truthiness of `command.exitCode` (`undefined` and `0` are falsy). -/
def exitCodeTruthy : Option Int → Bool
  | none => false
  | some c => c ≠ 0

/-- The module-level theme colors (`successColor`, `errorColor`,
`defaultColor`), each `undefined` or a `Color` rendered as its string. -/
structure ThemeColors where
  successColor : Option String
  errorColor : Option String
  defaultColor : Option String
  deriving Repr, DecidableEq

/-- The color computation in `registerCommandDecoration` and `_refreshStyles`:
pick by exit code, with the empty string when the theme color is `undefined`
(a JS falsy value takes the else branch that assigns the empty string). -/
def resolveColor (theme : ThemeColors) (exitCode : Option Int) : String :=
  let c := match exitCode with
    | none => theme.defaultColor
    | some c => if c ≠ 0 then theme.errorColor else theme.successColor
  match c with
  | none => ""
  | some s => s

/-! ## `DecorationSelector` tokens and the Style Resolver (`_updateClasses`) -/

def selCommandDecoration : String := "terminal-command-decoration"
def selHide : String := "hide"
def selErrorColor : String := "error"
def selDefaultColor : String := "default-color"
def selDefault : String := "default"
def selCodicon : String := "codicon"
def selXtermDecoration : String := "xterm-decoration"
def selGenericMarkerIcon : String := "codicon-circle-small-filled"

/-- The configured icon identifiers (`terminal.integrated.shellIntegration.decoration{Icon,IconSuccess,IconError}`). -/
structure IconConfig where
  defaultIcon : String
  successIcon : String
  errorIcon : String
  deriving Repr, DecidableEq

/-- `_updateClasses` (lines 340–363): after removing every existing class, the
class list assigned to the element, in `classList.add` order. -/
def updateClassesResult (cfg : IconConfig) (exitCode : Option Int)
    (genericMarkProperties : Option GenericMarkProperties) : List String :=
  let base := [selCommandDecoration, selCodicon, selXtermDecoration]
  match genericMarkProperties with
  | some g =>
      base ++ [selDefaultColor, selGenericMarkerIcon] ++
        (if strFalsy g.hoverMessage then [selDefault] else [])
  | none =>
      match exitCode with
      | none => base ++ [selDefaultColor, selDefault, "codicon-" ++ cfg.defaultIcon]
      | some c =>
          if c ≠ 0 then base ++ [selErrorColor, "codicon-" ++ cfg.errorIcon]
          else base ++ ["codicon-" ++ cfg.successIcon]

/-! ## Context-menu actions (`_getCommandActions`) -/

/-- The identities of the actions `_getCommandActions` can produce. -/
inductive CommandAction where
  | rerunCommand
  | copyCommand
  | separator
  | copyOutput
  | copyOutputAsHtml
  | learnShellIntegration
  deriving Repr, DecidableEq

/-- `_getCommandActions` (lines 412–450), abstracted to the action identities:
pushes rerun/copy when the command text is non-empty, a separator plus the two
output actions when `hasOutput()`, a separator when anything was pushed, and
always the learn-more action last. -/
def getCommandActions (commandText : String) (hasOutput : Bool) : List CommandAction :=
  let actions : List CommandAction :=
    if commandText ≠ "" then [.rerunCommand, .copyCommand] else []
  let actions :=
    if hasOutput then
      (if actions.length > 0 then actions ++ [.separator] else actions) ++
        [.copyOutput, .copyOutputAsHtml]
    else actions
  (if actions.length > 0 then actions ++ [.separator] else actions) ++
    [.learnShellIntegration]

/-- The action list as the sentence of the spec describes it (for comparison with
`getCommandActions`): rerun/copy for non-empty text, separator plus output
actions when output is present, and always a final separator before the
learn-more action. -/
def specActionList (commandText : String) (hasOutput : Bool) : List CommandAction :=
  (if commandText ≠ "" then [.rerunCommand, .copyCommand] else []) ++
    (if hasOutput then [.separator, .copyOutput, .copyOutputAsHtml] else []) ++
    [.separator, .learnShellIntegration]

/-! ## Layout Calculator (`_updateLayout`) -/

/-- `DecorationStyles.DefaultDimension`. -/
def defaultDimension : ℚ := 16
/-- `DecorationStyles.MarginLeft`. -/
def marginLeftStyle : ℚ := -17

/-- The four inline styles `_updateLayout` assigns. -/
structure LayoutResult where
  width : ℚ
  height : ℚ
  fontSize : ℚ
  marginLeft : ℚ
  deriving Repr, DecidableEq

/-- `_updateLayout` (lines 323–338), numeric part: the scalar is
`fontSize / defaultFontSize` when that ratio is `≤ 1`, else `1`; the element
styles are the default dimension, the default dimension times the line height,
the default dimension, and the margin constant, each multiplied by the scalar. -/
def updateLayoutResult (fontSize defaultFontSize lineHeight : ℚ) : LayoutResult :=
  let ratio := fontSize / defaultFontSize
  let scalar := if ratio ≤ 1 then ratio else 1
  { width := scalar * defaultDimension
    height := scalar * defaultDimension * lineHeight
    fontSize := scalar * defaultDimension
    marginLeft := scalar * marginLeftStyle }

/-! ## Association-list helpers (the JS insertion-ordered `Map`). -/

/-- `Map.get`: first value whose key matches. -/
def alLookup {α : Type} (l : List (Nat × α)) (k : Nat) : Option α :=
  (l.find? (fun p => p.1 = k)).map (·.2)

/-- In-place update of every value stored at key `k`. -/
def alUpdate {α : Type} (l : List (Nat × α)) (k : Nat) (f : α → α) : List (Nat × α) :=
  l.map (fun p => if p.1 = k then (p.1, f p.2) else p)

/-- `Map.delete`. -/
def alErase {α : Type} (l : List (Nat × α)) (k : Nat) : List (Nat × α) :=
  l.filter (fun p => ¬ p.1 = k)

/-! ## Host decorations, registry entries, subscriptions -/

/-- `overviewRulerOptions` of a host decoration. -/
structure RulerOpts where
  color : String
  position : String
  deriving Repr, DecidableEq

/-- A host `IDecoration` as the addon observes it: the marker it is anchored
to, its (mutable) overview-ruler options, whether it has been disposed, whether
its first render already installed the `onDispose` map-cleanup hook, plus the
`command` captured by its `onRender` closure and the `beforeCommandExecution`
flag it was created under. -/
structure Decoration where
  markerId : Nat
  rulerOpts : Option RulerOpts
  disposed : Bool
  hasDisposeHook : Bool
  createdAsPlaceholder : Bool
  cmd : TerminalCommand
  deriving Repr, DecidableEq

/-- `IDisposableDecoration`, an entry of the `_decorations` map (the
interaction-handler disposables are DOM-level and not modelled). -/
structure Entry where
  decoration : Nat
  exitCode : Option Int
  genericMarkProperties : Option GenericMarkProperties
  deriving Repr, DecidableEq

/-- The four command-detection event subscriptions. -/
inductive EventType where
  | commandStarted
  | commandFinished
  | commandInvalidated
  | currentCommandInvalidated
  deriving Repr, DecidableEq

/-- An event subscription held in `_commandDetectionListeners`. -/
structure Subscription where
  eventType : EventType
  active : Bool
  deriving Repr, DecidableEq

/-- The command-detection capability as read by `_addCommandDetectionListeners`. -/
structure CommandDetectionCapability where
  executingCommandObject : Option TerminalCommand
  commands : List TerminalCommand
  deriving Repr, DecidableEq

/-- The mutable fields of `DecorationAddon`, plus the stores of host
decorations and event subscriptions it holds handles into.  `terminal` is
whether `_terminal` is set; `host : Nat → Bool` (passed to the operations, not
stored) says whether `terminal.registerDecoration` returns a decoration for a
given marker id. -/
structure AddonState where
  terminal : Bool
  decorationsMap : List (Nat × Entry)
  placeholderDecoration : Option Nat
  overviewRulerDecorations : Bool
  decorationsDisabled : Bool
  commandDetectionListeners : Option (List Nat)
  gutterVisible : Bool
  decos : List (Nat × Decoration)
  nextDecoId : Nat
  subs : List (Nat × Subscription)
  nextSubId : Nat
  deriving Repr, DecidableEq

/-- The state of a freshly constructed addon (before `activate`). -/
def initialAddonState : AddonState :=
  { terminal := false
    decorationsMap := []
    placeholderDecoration := none
    overviewRulerDecorations := false
    decorationsDisabled := false
    commandDetectionListeners := none
    gutterVisible := true
    decos := []
    nextDecoId := 0
    subs := []
    nextSubId := 0 }

/-- `decoration.dispose()`: mark the decoration disposed; if its first render
installed the `onDispose` hook, that hook deletes the `_decorations` entry for
its marker id.  Disposing twice, or a dangling id, is a no-op. -/
def disposeDecoration (s : AddonState) (id : Nat) : AddonState :=
  match alLookup s.decos id with
  | none => s
  | some d =>
      if d.disposed then s
      else
        let s' := { s with decos := alUpdate s.decos id (fun d => { d with disposed := true }) }
        if d.hasDisposeHook then
          { s' with decorationsMap := alErase s'.decorationsMap d.markerId }
        else s'

/-- `subscription.dispose()` for each id in the list (`dispose(disposables)`). -/
def disposeSubs (s : AddonState) (ids : List Nat) : AddonState :=
  { s with
    subs := s.subs.map (fun p =>
      if p.1 ∈ ids then (p.1, { p.2 with active := false }) else p) }

/-- `_clearPlaceholder` (lines 180–183). -/
def clearPlaceholder (s : AddonState) : AddonState :=
  let s' := match s.placeholderDecoration with
    | some id => disposeDecoration s id
    | none => s
  { s' with placeholderDecoration := none }

/-- `registerCommandDecoration` (lines 263–312), up to returning.  `host m`
tells whether `this._terminal.registerDecoration` returns a decoration for
marker `m`.  Returns the id of the created decoration (or `none`) and the new
state; `throw new Error(...)` becomes `Except.error` (the state at the throw
site is the entry state, as the throw happens before any mutation). -/
def registerCommandDecoration (s : AddonState) (command : TerminalCommand)
    (beforeCommandExecution : Bool) (host : Nat → Bool) (theme : ThemeColors) :
    Except String (Option Nat × AddonState) :=
  if ¬ s.terminal ∨ (beforeCommandExecution ∧ command.genericMarkProperties.isSome) ∨
      s.decorationsDisabled then
    .ok (none, s)
  else
    match command.marker with
    | none => .error "cannot add a decoration for a command with no marker"
    | some markerId =>
        let s := clearPlaceholder s
        let color := resolveColor theme command.exitCode
        if host markerId then
          let rulerOpts : Option RulerOpts :=
            if s.overviewRulerDecorations then
              some { color
                     position :=
                       if beforeCommandExecution then "left"
                       else if exitCodeTruthy command.exitCode then "right" else "left" }
            else none
          let decId := s.nextDecoId
          let dec : Decoration :=
            { markerId
              rulerOpts
              disposed := false
              hasDisposeHook := false
              createdAsPlaceholder := beforeCommandExecution
              cmd := command }
          let s := { s with decos := s.decos ++ [(decId, dec)], nextDecoId := decId + 1 }
          let s := if beforeCommandExecution then { s with placeholderDecoration := some decId } else s
          .ok (some decId, s)
        else
          .ok (none, s)

/-- The `onRender` callback of a registered decoration (lines 291–310): on
first render, install the `onDispose` map-cleanup hook and add the
`_decorations` entry for the marker; idempotent once the entry exists.  (The
class/layout stamping acts on the DOM element, outside this state.) -/
def renderDecoration (s : AddonState) (id : Nat) : AddonState :=
  match alLookup s.decos id with
  | none => s
  | some d =>
      if d.disposed then s
      else if (alLookup s.decorationsMap d.markerId).isSome then s
      else
        { s with
          decos := alUpdate s.decos id (fun d => { d with hasDisposeHook := true })
          decorationsMap := s.decorationsMap ++
            [(d.markerId,
              { decoration := id
                exitCode := d.cmd.exitCode
                genericMarkProperties := d.cmd.genericMarkProperties })] }

/-- Deliver the pending `onRender` callback of every registered decoration, in
creation order (disposed or already-entered decorations are skipped by the
callback itself). -/
def renderAll (s : AddonState) : AddonState :=
  (s.decos.map Prod.fst).foldl renderDecoration s

/-- `registerCommandDecoration` as a bare state transition (return value
dropped, as at its call sites inside the event binder). -/
def registerRun (s : AddonState) (command : TerminalCommand) (beforeCommandExecution : Bool)
    (host : Nat → Bool) (theme : ThemeColors) : Except String AddonState :=
  (registerCommandDecoration s command beforeCommandExecution host theme).map (·.2)

/-! ## Command Event Binder -/

/-- Allocate a fresh active subscription of the given event type. -/
def newSub (s : AddonState) (t : EventType) : Nat × AddonState :=
  (s.nextSubId,
    { s with
      subs := s.subs ++ [(s.nextSubId, { eventType := t, active := true })]
      nextSubId := s.nextSubId + 1 })

/-- `this._commandDetectionListeners.push(capability.onX(...))`. -/
def pushListener (s : AddonState) (t : EventType) : AddonState :=
  let (id, s') := newSub s t
  { s' with
    commandDetectionListeners := some ((s'.commandDetectionListeners.getD []) ++ [id]) }

/-- The head of `_addCommandDetectionListeners`: dispose the old listener
subscriptions when the list exists. -/
def disposeOldListeners (s : AddonState) : AddonState :=
  match s.commandDetectionListeners with
  | some ids => disposeSubs s ids
  | none => s

/-- `_addCommandDetectionListeners` (lines 215–256).  `cap` is
`this._capabilities.get(TerminalCapability.CommandDetection)`.  Note that when
the capability is absent, the method returns after disposing the old listeners
but without resetting `_commandDetectionListeners`. -/
def addCommandDetectionListeners (s : AddonState) (cap : Option CommandDetectionCapability)
    (host : Nat → Bool) (theme : ThemeColors) : Except String AddonState := do
  let s := disposeOldListeners s
  match cap with
  | none => pure s
  | some capability =>
      let s := { s with commandDetectionListeners := some [] }
      let s ←
        match capability.executingCommandObject with
        | some cmd =>
            if cmd.marker.isSome then registerRun s cmd true host theme else pure s
        | none => pure s
      let s := pushListener s .commandStarted
      let s ← capability.commands.foldlM
        (fun s command => registerRun s command false host theme) s
      let s := pushListener s .commandFinished
      let s := pushListener s .commandInvalidated
      let s := pushListener s .currentCommandInvalidated
      pure s

/-- `_attachToCommandCapability` (lines 195–213): binds when the capability is
present.  When absent it merely installs a lazy `onDidAddCapability` callback
(whose later firing is modelled as a direct rebind operation), so the state is
unchanged here; the `onDidRemoveCapability` callback body is modelled by
`onCommandDetectionCapabilityRemoved` below. -/
def attachToCommandCapability (s : AddonState) (cap : Option CommandDetectionCapability)
    (host : Nat → Bool) (theme : ThemeColors) : Except String AddonState :=
  match cap with
  | some c => addCommandDetectionListeners s (some c) host theme
  | none => pure s

/-- The `onDidRemoveCapability` handler body for `CommandDetection`
(lines 205–212): dispose the listeners and clear the list. -/
def onCommandDetectionCapabilityRemoved (s : AddonState) : AddonState :=
  match s.commandDetectionListeners with
  | some ids => { disposeSubs s ids with commandDetectionListeners := none }
  | none => s

/-! ## Visibility Mode Controller -/

/-- The four values of `TerminalSettingId.ShellIntegrationDecorationsEnabled`. -/
inductive VisibilityMode where
  | never
  | both
  | gutter
  | overviewRuler
  deriving Repr, DecidableEq

/-- `_updateGutterDecorationVisibility` (lines 134–143), which toggles the
`hide` class on the DOM containers. -/
def updateGutterDecorationVisibility (s : AddonState) (visible : Bool) : AddonState :=
  { s with gutterVisible := visible }

/-- `_updateDecorationVisibility` (lines 98–132); `showDecorations` is the
configuration value read at entry. -/
def updateDecorationVisibility (s : AddonState) (showDecorations : VisibilityMode)
    (cap : Option CommandDetectionCapability) (host : Nat → Bool) (theme : ThemeColors) :
    Except String AddonState :=
  match showDecorations with
  | .never =>
      let s := updateGutterDecorationVisibility s false
      pure { s with overviewRulerDecorations := false, decorationsDisabled := true }
  | .both => do
      let s := updateGutterDecorationVisibility s true
      let s ← attachToCommandCapability s cap host theme
      let s := { s with overviewRulerDecorations := true, decorationsDisabled := false }
      attachToCommandCapability s cap host theme
  | .gutter => do
      let s := updateGutterDecorationVisibility s true
      let s := match s.placeholderDecoration with
        | some id => { s with decos := alUpdate s.decos id (fun d => { d with rulerOpts := none }) }
        | none => s
      let s := { s with
        decos := s.decorationsMap.foldl
          (fun (ds : List (Nat × Decoration)) (p : Nat × Entry) =>
            alUpdate ds p.2.decoration (fun d => { d with rulerOpts := none }))
          s.decos }
      let s := { s with overviewRulerDecorations := false, decorationsDisabled := false }
      attachToCommandCapability s cap host theme
  | .overviewRuler => do
      let s := updateGutterDecorationVisibility s false
      let s := { s with overviewRulerDecorations := true, decorationsDisabled := false }
      attachToCommandCapability s cap host theme

/-- The configuration-change branch for
`TerminalSettingId.ShellIntegrationDecorationsEnabled` (lines 86–92): dispose
the placeholder and the decoration of every map entry (each `onDispose` hook deletes
its own map entry during the iteration), then re-derive visibility from the new
value. -/
def onDecorationsEnabledConfigChanged (s : AddonState) (newValue : VisibilityMode)
    (cap : Option CommandDetectionCapability) (host : Nat → Bool) (theme : ThemeColors) :
    Except String AddonState :=
  let s := match s.placeholderDecoration with
    | some id => disposeDecoration s id
    | none => s
  let s := (s.decorationsMap.map (fun p => p.2.decoration)).foldl disposeDecoration s
  updateDecorationVisibility s newValue cap host theme

/-! ## Remaining event handlers -/

/-- `CommandInvalidationReason`. -/
inductive CommandInvalidationReason where
  | windows
  | noProblemsReported
  deriving Repr, DecidableEq

/-- The `onCurrentCommandInvalidated` handler (lines 248–255):
`NoProblemsReported` disposes the decoration of the last map entry
(`Array.from(entries)[size - 1]`); `Windows` clears the placeholder. -/
def currentCommandInvalidated (s : AddonState) (reason : CommandInvalidationReason) :
    AddonState :=
  match reason with
  | .noProblemsReported =>
      match s.decorationsMap.getLast? with
      | some p => disposeDecoration s p.2.decoration
      | none => s
  | .windows => clearPlaceholder s

/-- `activate` (lines 258–261). -/
def activate (s : AddonState) (cap : Option CommandDetectionCapability)
    (host : Nat → Bool) (theme : ThemeColors) : Except String AddonState :=
  attachToCommandCapability { s with terminal := true } cap host theme

/-! ## Event sequences -/

/-- One `onCommandStarted` delivery: the command it carries and the host
response to the resulting `registerDecoration` call. -/
structure StartedEvent where
  command : TerminalCommand
  host : Nat → Bool

/-- The `onCommandStarted` handler (line 228). -/
def runStartedEvent (s : AddonState) (theme : ThemeColors) (e : StartedEvent) :
    Except String AddonState :=
  registerRun s e.command true e.host theme

/-- A sequence of `onCommandStarted` deliveries. -/
def runStartedEvents (s : AddonState) (theme : ThemeColors) (events : List StartedEvent) :
    Except String AddonState :=
  events.foldlM (runStartedEvent · theme ·) s

/-- An unbind (capability removed) or rebind (capability added, or a
visibility-mode change re-running `_addCommandDetectionListeners`) operation on
the Command Event Binder. -/
inductive BinderOp where
  | rebind (cap : Option CommandDetectionCapability) (host : Nat → Bool) (theme : ThemeColors)
  | unbind

/-- Run one binder operation. -/
def runBinderOp (s : AddonState) : BinderOp → Except String AddonState
  | .rebind cap host theme => addCommandDetectionListeners s cap host theme
  | .unbind => pure (onCommandDetectionCapabilityRemoved s)

/-- Run a sequence of binder operations. -/
def runBinderOps (s : AddonState) (ops : List BinderOp) : Except String AddonState :=
  ops.foldlM runBinderOp s

/-- The decoration that `registerCommandDecoration` creates (in state `s₁`,
after the placeholder was cleared) for `command` on marker `m`. -/
def mkDecoration (s₁ : AddonState) (command : TerminalCommand) (beforeCommandExecution : Bool)
    (m : Nat) (theme : ThemeColors) : Decoration :=
  { markerId := m
    rulerOpts :=
      if s₁.overviewRulerDecorations then
        some { color := resolveColor theme command.exitCode
               position :=
                 if beforeCommandExecution then "left"
                 else if exitCodeTruthy command.exitCode then "right" else "left" }
      else none
    disposed := false
    hasDisposeHook := false
    createdAsPlaceholder := beforeCommandExecution
    cmd := command }

/-- The state produced by a successful `registerCommandDecoration` (guards
passed, marker `m` present, host created the decoration). -/
def registerResultState (s : AddonState) (command : TerminalCommand)
    (beforeCommandExecution : Bool) (m : Nat) (theme : ThemeColors) : AddonState :=
  let s₁ := clearPlaceholder s
  let s₂ := { s₁ with
    decos := s₁.decos ++ [(s₁.nextDecoId, mkDecoration s₁ command beforeCommandExecution m theme)]
    nextDecoId := s₁.nextDecoId + 1 }
  if beforeCommandExecution then { s₂ with placeholderDecoration := some s₁.nextDecoId } else s₂

/-! ## Observations and well-formedness predicates -/

/-- Whether an `Except` computation ended in a thrown error. -/
def isError {ε α : Type} : Except ε α → Bool
  | .error _ => true
  | .ok _ => false

/-- The ids of all host decorations ever created. -/
def decoKeys (s : AddonState) : List Nat := s.decos.map Prod.fst

/-- The decoration stored under `id`, if any, is disposed. -/
def decoDisposed (s : AddonState) (id : Nat) : Prop :=
  ∀ d, alLookup s.decos id = some d → d.disposed = true

/-- The current overview-ruler options of the decoration stored under `id`. -/
def rulerOptsAt (s : AddonState) (id : Nat) : Option RulerOpts :=
  match alLookup s.decos id with
  | some d => d.rulerOpts
  | none => none

/-- Ids of live (undisposed) decorations that were created as placeholders. -/
def livePlaceholderKeys (s : AddonState) : List Nat :=
  (s.decos.filter (fun p => p.2.createdAsPlaceholder && !p.2.disposed)).map Prod.fst

/-- Invariant carried through `onCommandStarted` sequences: decoration ids are
unique and below the allocation counter, and every live placeholder-created
decoration is the one currently referenced by `_placeholderDecoration`. -/
def PlaceholderInv (s : AddonState) : Prop :=
  (decoKeys s).Nodup ∧ (∀ k ∈ decoKeys s, k < s.nextDecoId) ∧
    ∀ k ∈ livePlaceholderKeys s, s.placeholderDecoration = some k

/-- Ids of the active subscriptions of one event type. -/
def activeSubsOfType (s : AddonState) (t : EventType) : List Nat :=
  (s.subs.filter (fun p => p.2.active && p.2.eventType == t)).map Prod.fst

/-- Every active subscription is held in `_commandDetectionListeners`. -/
def ListenersCover (s : AddonState) : Prop :=
  ∀ p ∈ s.subs, p.2.active = true → p.1 ∈ s.commandDetectionListeners.getD []

/-- Invariant carried through binder operations. -/
def BinderInv (s : AddonState) : Prop :=
  ListenersCover s ∧ ∀ t, (activeSubsOfType s t).length ≤ 1

/-- No subscription is active at all. -/
def NoActiveSubs (s : AddonState) : Prop :=
  ∀ p ∈ s.subs, p.2.active = false

/-- Well-formedness of the `_decorations` map: keys are unique, and every
entry references an existing, hooked, live decoration anchored at the entry
key.  This holds in every reachable state, because entries are created only by
the render callback (which installs the deletion hook) and removed exactly
when their decoration is disposed. -/
def MapWF (s : AddonState) : Prop :=
  (s.decorationsMap.map Prod.fst).Nodup ∧
    ∀ p ∈ s.decorationsMap, ∃ d, alLookup s.decos p.2.decoration = some d ∧
      d.hasDisposeHook = true ∧ d.markerId = p.1 ∧ d.disposed = false

/-- `MapWF`, decidably: keys are unique, and
every entry references an existing, hooked, live decoration anchored at the
entry key. -/
def mapWFb (s : AddonState) : Bool :=
  decide (s.decorationsMap.map Prod.fst).Nodup &&
    s.decorationsMap.all (fun p =>
      match alLookup s.decos p.2.decoration with
      | some d => d.hasDisposeHook && d.markerId == p.1 && !d.disposed
      | none => false)

/-- The rebind passes never touch the stored decorations beyond disposing the
placeholder and appending fresh ones: every previously stored decoration is
still found under its id with its overview-ruler options unchanged, and the
registry map only loses entries. -/
def DecoMono (s s' : AddonState) : Prop :=
  (∀ id d, alLookup s.decos id = some d →
    ∃ d', alLookup s'.decos id = some d' ∧ d'.rulerOpts = d.rulerOpts) ∧
  ∀ p ∈ s'.decorationsMap, p ∈ s.decorationsMap

/-! ## Concrete demonstration data -/

def demoTheme : ThemeColors :=
  { successColor := some "green", errorColor := some "red", defaultColor := some "blue" }

def demoHost : Nat → Bool := fun _ => true

/-- A just-started command (no exit code yet) on marker 10. -/
def demoCmd : TerminalCommand :=
  { marker := some 10, exitCode := none, genericMarkProperties := none
    command := "ls", hasOutput := false }

/-- A second started command, on marker 11. -/
def demoCmd2 : TerminalCommand :=
  { marker := some 11, exitCode := none, genericMarkProperties := none
    command := "pwd", hasOutput := false }

/-- A finished command on marker 20. -/
def demoCmdA : TerminalCommand :=
  { marker := some 20, exitCode := some 0, genericMarkProperties := none
    command := "a", hasOutput := false }

/-- A finished command on marker 21. -/
def demoCmdB : TerminalCommand :=
  { marker := some 21, exitCode := some 2, genericMarkProperties := none
    command := "b", hasOutput := true }

/-- The addon right after `activate` on a fresh state with no capability. -/
def activatedState : AddonState := { initialAddonState with terminal := true }

/-- `activatedState` after the placeholder for `demoCmd` was registered. -/
def demoPlaceholderState : AddonState :=
  match registerCommandDecoration activatedState demoCmd true demoHost demoTheme with
  | .ok (_, s) => s
  | .error _ => activatedState

/-- `demoPlaceholderState` after the host delivered the render callback: one
placeholder entry in the registry, zero finished entries. -/
def demoRendered : AddonState := renderAll demoPlaceholderState

/-- A state in `gutter`-equivalent flags with one rendered finished-command
entry whose decoration carries no overview-ruler options. -/
def demoGutterState : AddonState :=
  renderAll
    (match registerCommandDecoration activatedState demoCmdA false demoHost demoTheme with
     | .ok (_, s) => s
     | .error _ => activatedState)

/-- A capability knowing the single finished command `demoCmdA`. -/
def demoCap : CommandDetectionCapability :=
  { executingCommandObject := none, commands := [demoCmdA] }

/-- `demoGutterState` after the visibility mode switches to `both`. -/
def demoBothState : AddonState :=
  match updateDecorationVisibility demoGutterState .both (some demoCap) demoHost demoTheme with
  | .ok s => s
  | .error _ => activatedState

/-- Two consecutive command-started deliveries. -/
def demoStartedEvents : List StartedEvent :=
  [{ command := demoCmd, host := demoHost }, { command := demoCmd2, host := demoHost }]

/-- The state after running `demoStartedEvents` from the activated addon. -/
def demoStartedState : AddonState :=
  match runStartedEvents activatedState demoTheme demoStartedEvents with
  | .ok s => s
  | .error _ => activatedState

/-- Rebind, unbind, rebind again. -/
def demoBinderOps : List BinderOp :=
  [.rebind (some demoCap) demoHost demoTheme, .unbind,
   .rebind (some demoCap) demoHost demoTheme]

/-- The state after running `demoBinderOps` from the initial addon state. -/
def demoBinderState : AddonState :=
  match runBinderOps initialAddonState demoBinderOps with
  | .ok s => s
  | .error _ => initialAddonState

/-- `demoRendered` after the visibility configuration changed to `never`. -/
def demoNeverState : AddonState :=
  match onDecorationsEnabledConfigChanged demoRendered .never none demoHost demoTheme with
  | .ok s => s
  | .error _ => demoRendered

/-- `demoNeverState` after the visibility configuration changed back to
`both`, with a capability knowing the finished command `demoCmdA`. -/
def demoRepopulated : AddonState :=
  match onDecorationsEnabledConfigChanged demoNeverState .both (some demoCap) demoHost demoTheme with
  | .ok s => s
  | .error _ => demoNeverState

/-! ## Association-list lemmas -/

theorem alLookup_nil {α : Type} (k : Nat) : alLookup ([] : List (Nat × α)) k = none := rfl

theorem alLookup_cons {α : Type} (p : Nat × α) (l : List (Nat × α)) (k : Nat) :
    alLookup (p :: l) k = if p.1 = k then some p.2 else alLookup l k := by
  by_cases h : p.1 = k <;> simp [alLookup, List.find?_cons, h]

theorem alLookup_append_of_some {α : Type} {l₁ : List (Nat × α)} {k : Nat} {v : α}
    (l₂ : List (Nat × α)) (h : alLookup l₁ k = some v) :
    alLookup (l₁ ++ l₂) k = some v := by
  induction l₁ with
  | nil => simp [alLookup_nil] at h
  | cons p t ih =>
      rw [alLookup_cons] at h
      by_cases hp : p.1 = k
      · simp [hp, alLookup_cons] at h ⊢
        exact h
      · simp only [hp, if_false] at h
        simpa [alLookup_cons, hp] using ih h

theorem alLookup_append_of_none {α : Type} {l₁ : List (Nat × α)} {k : Nat}
    (l₂ : List (Nat × α)) (h : alLookup l₁ k = none) :
    alLookup (l₁ ++ l₂) k = alLookup l₂ k := by
  induction l₁ with
  | nil => simp
  | cons p t ih =>
      rw [alLookup_cons] at h
      by_cases hp : p.1 = k
      · simp [hp] at h
      · simp only [hp, if_false] at h
        simpa [alLookup_cons, hp] using ih h

theorem alUpdate_cons {α : Type} (p : Nat × α) (t : List (Nat × α)) (k : Nat) (f : α → α) :
    alUpdate (p :: t) k f =
      (if p.1 = k then (p.1, f p.2) else p) :: alUpdate t k f := rfl

theorem alErase_cons {α : Type} (p : Nat × α) (t : List (Nat × α)) (k : Nat) :
    alErase (p :: t) k = if p.1 = k then alErase t k else p :: alErase t k := by
  simp only [alErase, List.filter_cons]
  by_cases h : p.1 = k <;> simp [h]

theorem alLookup_update {α : Type} (l : List (Nat × α)) (k : Nat) (f : α → α) (k' : Nat) :
    alLookup (alUpdate l k f) k' =
      if k' = k then (alLookup l k').map f else alLookup l k' := by
  induction l with
  | nil => by_cases h : k' = k <;> simp [alUpdate, alLookup_nil, h]
  | cons p t ih =>
      rw [alUpdate_cons]
      by_cases h1 : p.1 = k
      · simp only [h1, if_true]
        rw [alLookup_cons, alLookup_cons]
        by_cases h2 : p.1 = k'
        · have hk : k' = k := h2.symm.trans h1
          simp [h2, hk]
        · have hk2 : ¬ k = k' := fun hh => h2 (h1.trans hh)
          have hk : ¬ k' = k := fun hh => hk2 hh.symm
          rw [if_neg hk2, ih, if_neg hk, if_neg hk, if_neg h2]
      · simp only [h1, if_false]
        rw [alLookup_cons, alLookup_cons]
        by_cases h2 : p.1 = k'
        · have hk : ¬ k' = k := fun hh => h1 (h2.trans hh)
          simp [h2, hk]
        · simp only [h2, if_false]
          rw [ih]

theorem alLookup_erase {α : Type} (l : List (Nat × α)) (k k' : Nat) :
    alLookup (alErase l k) k' = if k' = k then none else alLookup l k' := by
  induction l with
  | nil => by_cases h : k' = k <;> simp [alErase, alLookup_nil, h]
  | cons p t ih =>
      rw [alErase_cons]
      by_cases h1 : p.1 = k
      · simp only [h1, if_true]
        rw [ih, alLookup_cons]
        by_cases h2 : k' = k
        · simp [h2]
        · have hp : ¬ p.1 = k' := fun hh => h2 (hh.symm.trans h1)
          simp [h2, hp]
      · simp only [h1, if_false]
        rw [alLookup_cons, alLookup_cons, ih]
        by_cases h2 : p.1 = k'
        · have hk : ¬ k' = k := fun hh => h1 (h2.trans hh)
          simp [h2, hk]
        · simp [h2]

theorem alLookup_eq_none {α : Type} (l : List (Nat × α)) (k : Nat) :
    alLookup l k = none ↔ k ∉ l.map Prod.fst := by
  induction l with
  | nil => simp [alLookup_nil]
  | cons p t ih =>
      rw [alLookup_cons, List.map_cons]
      by_cases h : p.1 = k
      · constructor
        · intro hh
          simp [h] at hh
        · intro hh
          exact absurd (by rw [h]; exact List.mem_cons_self _ _) hh
      · simp only [h, if_false, List.mem_cons]
        rw [ih]
        constructor
        · intro hh hc
          rcases hc with hc | hc
          · exact h hc.symm
          · exact hh hc
        · intro hh hc
          exact hh (Or.inr hc)

theorem alLookup_of_mem_nodup {α : Type} {l : List (Nat × α)} {k : Nat} {v : α}
    (hn : (l.map Prod.fst).Nodup) (hm : (k, v) ∈ l) : alLookup l k = some v := by
  induction l with
  | nil => simp at hm
  | cons p t ih =>
      rw [List.map_cons, List.nodup_cons] at hn
      rw [alLookup_cons]
      rcases List.mem_cons.mp hm with h | h
      · rw [← h]
        simp
      · have hk : ¬ p.1 = k := by
          intro hh
          exact hn.1 (hh ▸ (List.mem_map.mpr ⟨(k, v), h, rfl⟩))
        simp only [hk, if_false]
        exact ih hn.2 h

theorem mem_of_alLookup {α : Type} {l : List (Nat × α)} {k : Nat} {v : α}
    (h : alLookup l k = some v) : (k, v) ∈ l := by
  induction l with
  | nil => simp [alLookup_nil] at h
  | cons p t ih =>
      rw [alLookup_cons] at h
      by_cases hp : p.1 = k
      · simp only [hp, if_true, Option.some.injEq] at h
        have he : p = (k, v) := by
          cases p
          cases hp
          cases h
          rfl
        rw [← he]
        exact List.mem_cons_self _ _
      · simp only [hp, if_false] at h
        exact List.mem_cons_of_mem _ (ih h)

theorem alUpdate_map_fst {α : Type} (l : List (Nat × α)) (k : Nat) (f : α → α) :
    (alUpdate l k f).map Prod.fst = l.map Prod.fst := by
  induction l with
  | nil => rfl
  | cons p t ih =>
      simp only [alUpdate, List.map_cons] at *
      by_cases h : p.1 = k <;> simp [h, ih]

theorem mem_alUpdate {α : Type} {l : List (Nat × α)} {k : Nat} {f : α → α} {p : Nat × α}
    (h : p ∈ alUpdate l k f) :
    (p.1 = k ∧ ∃ v, (k, v) ∈ l ∧ p.2 = f v) ∨ (¬ p.1 = k ∧ p ∈ l) := by
  rcases List.mem_map.mp h with ⟨q, hq, he⟩
  by_cases hk : q.1 = k
  · simp only [hk, if_true] at he
    left
    refine ⟨by rw [← he], q.2, ?_, by rw [← he]⟩
    have : q = (k, q.2) := by
      rw [← hk]
    rw [← this]
    exact hq
  · simp only [hk, if_false] at he
    right
    exact ⟨by rw [← he]; exact hk, he ▸ hq⟩

theorem mem_alErase {α : Type} {l : List (Nat × α)} {k : Nat} {p : Nat × α} :
    p ∈ alErase l k ↔ p ∈ l ∧ ¬ p.1 = k := by
  simp [alErase, List.mem_filter]

theorem alErase_of_not_mem {α : Type} {l : List (Nat × α)} {k : Nat}
    (h : k ∉ l.map Prod.fst) : alErase l k = l := by
  induction l with
  | nil => rfl
  | cons p t ih =>
      simp only [List.map_cons, List.mem_cons, not_or] at h
      rw [alErase_cons]
      have hp : ¬ p.1 = k := fun hh => h.1 hh.symm
      rw [if_neg hp, ih h.2]

theorem alErase_cons_self {α : Type} (k : Nat) (v : α) (t : List (Nat × α))
    (h : k ∉ t.map Prod.fst) : alErase ((k, v) :: t) k = t := by
  rw [alErase_cons, if_pos rfl]
  exact alErase_of_not_mem h

/-! ## Small string facts -/

theorem codicon_ne_error (s : String) : "codicon-" ++ s ≠ selErrorColor := by
  intro h
  have h2 : ("codicon-" ++ s).length = selErrorColor.length := by rw [h]
  rw [String.length_append] at h2
  have e1 : String.length "codicon-" = 8 := rfl
  have e2 : String.length selErrorColor = 5 := rfl
  omega

/-! ## Per-operation state lemmas -/

theorem disposeDecoration_fields (s : AddonState) (id : Nat) :
    (disposeDecoration s id).placeholderDecoration = s.placeholderDecoration ∧
    (disposeDecoration s id).terminal = s.terminal ∧
    (disposeDecoration s id).decorationsDisabled = s.decorationsDisabled ∧
    (disposeDecoration s id).overviewRulerDecorations = s.overviewRulerDecorations ∧
    (disposeDecoration s id).subs = s.subs ∧
    (disposeDecoration s id).nextSubId = s.nextSubId ∧
    (disposeDecoration s id).commandDetectionListeners = s.commandDetectionListeners ∧
    (disposeDecoration s id).nextDecoId = s.nextDecoId ∧
    (disposeDecoration s id).gutterVisible = s.gutterVisible := by
  unfold disposeDecoration
  cases alLookup s.decos id with
  | none => simp
  | some d => cases hd : d.disposed <;> cases hh : d.hasDisposeHook <;> simp [hd, hh]

theorem disposeDecoration_decos_lookup (s : AddonState) (id j : Nat) :
    alLookup (disposeDecoration s id).decos j =
      if j = id then (alLookup s.decos j).map (fun d => { d with disposed := true })
      else alLookup s.decos j := by
  unfold disposeDecoration
  cases hl : alLookup s.decos id with
  | none =>
      by_cases hj : j = id
      · rw [if_pos hj, hj, hl]
        rfl
      · rw [if_neg hj]
  | some d =>
      cases hd : d.disposed with
      | true =>
          simp only [hd, if_true]
          by_cases hj : j = id
          · rw [if_pos hj, hj, hl]
            cases d
            simp at hd
            simp [hd]
          · rw [if_neg hj]
      | false =>
          simp only [hd]
          cases hh : d.hasDisposeHook <;>
            simp [hh, alLookup_update, hl]

theorem disposeDecoration_map_mem (s : AddonState) (id : Nat) (p : Nat × Entry)
    (h : p ∈ (disposeDecoration s id).decorationsMap) : p ∈ s.decorationsMap := by
  cases hl : alLookup s.decos id with
  | none =>
      simp only [disposeDecoration, hl] at h
      exact h
  | some d =>
      cases hd : d.disposed with
      | true =>
          simp only [disposeDecoration, hl, hd, if_true] at h
          exact h
      | false =>
          cases hh : d.hasDisposeHook with
          | true =>
              simp [disposeDecoration, hl, hd, hh] at h
              exact (mem_alErase.mp h).1
          | false =>
              simp [disposeDecoration, hl, hd, hh] at h
              exact h

theorem clearPlaceholder_fields (s : AddonState) :
    (clearPlaceholder s).placeholderDecoration = none ∧
    (clearPlaceholder s).terminal = s.terminal ∧
    (clearPlaceholder s).decorationsDisabled = s.decorationsDisabled ∧
    (clearPlaceholder s).overviewRulerDecorations = s.overviewRulerDecorations ∧
    (clearPlaceholder s).subs = s.subs ∧
    (clearPlaceholder s).nextSubId = s.nextSubId ∧
    (clearPlaceholder s).commandDetectionListeners = s.commandDetectionListeners ∧
    (clearPlaceholder s).nextDecoId = s.nextDecoId ∧
    (clearPlaceholder s).gutterVisible = s.gutterVisible := by
  unfold clearPlaceholder
  cases hp : s.placeholderDecoration with
  | none => simp
  | some id =>
      have hf := disposeDecoration_fields s id
      refine ⟨rfl, ?_, ?_, ?_, ?_, ?_, ?_, ?_, ?_⟩ <;> simp [hf.1, hf.2.1, hf.2.2.1,
        hf.2.2.2.1, hf.2.2.2.2.1, hf.2.2.2.2.2.1, hf.2.2.2.2.2.2.1,
        hf.2.2.2.2.2.2.2.1, hf.2.2.2.2.2.2.2.2]

/-- When the current placeholder (if any) is already disposed or dangling,
`_clearPlaceholder` only clears the reference. -/
theorem clearPlaceholder_of_disposed (s : AddonState)
    (h : ∀ id, s.placeholderDecoration = some id → decoDisposed s id) :
    clearPlaceholder s = { s with placeholderDecoration := none } := by
  cases hp : s.placeholderDecoration with
  | none => simp [clearPlaceholder, hp]
  | some id =>
      cases hl : alLookup s.decos id with
      | none => simp [clearPlaceholder, disposeDecoration, hp, hl]
      | some d =>
          have hd : d.disposed = true := h id hp d hl
          simp [clearPlaceholder, disposeDecoration, hp, hl, hd]

/-- The complete case analysis of a successful `registerCommandDecoration`. -/
theorem register_cases (s : AddonState) (cmd : TerminalCommand) (b : Bool)
    (host : Nat → Bool) (theme : ThemeColors) (r : Option Nat) (s' : AddonState)
    (h : registerCommandDecoration s cmd b host theme = .ok (r, s')) :
    ((¬ s.terminal = true ∨ (b = true ∧ cmd.genericMarkProperties.isSome = true) ∨
        s.decorationsDisabled = true) ∧ r = none ∧ s' = s) ∨
    (∃ m, cmd.marker = some m ∧
      ((host m = false ∧ r = none ∧ s' = clearPlaceholder s) ∨
       (host m = true ∧ r = some (clearPlaceholder s).nextDecoId ∧
         s' = registerResultState s cmd b m theme))) := by
  unfold registerCommandDecoration at h
  split at h
  · rename_i hc
    simp only [Except.ok.injEq, Prod.mk.injEq] at h
    exact Or.inl ⟨hc, h.1.symm, h.2.symm⟩
  · cases hm : cmd.marker with
    | none =>
        rw [hm] at h
        simp at h
    | some m =>
        rw [hm] at h
        dsimp only at h
        refine Or.inr ⟨m, rfl, ?_⟩
        cases hh : host m with
        | false =>
            simp only [hh, Except.ok.injEq, Prod.mk.injEq] at h
            norm_num at h
            exact Or.inl ⟨rfl, h.1.symm, h.2.symm⟩
        | true =>
            simp only [hh, if_true, Except.ok.injEq, Prod.mk.injEq] at h
            refine Or.inr ⟨rfl, h.1.symm, ?_⟩
            rw [← h.2]
            rfl

theorem clearPlaceholder_decos_some (s : AddonState) (id : Nat)
    (hp : s.placeholderDecoration = some id) :
    (clearPlaceholder s).decos = (disposeDecoration s id).decos := by
  simp [clearPlaceholder, hp]

/-- `_clearPlaceholder` leaves the referenced decoration disposed. -/
theorem clearPlaceholder_disposes (s : AddonState) (id : Nat)
    (hp : s.placeholderDecoration = some id) : decoDisposed (clearPlaceholder s) id := by
  intro d hd
  rw [clearPlaceholder_decos_some s id hp, disposeDecoration_decos_lookup, if_pos rfl] at hd
  cases hl : alLookup s.decos id with
  | none =>
      rw [hl] at hd
      simp at hd
  | some d0 =>
      rw [hl] at hd
      injection hd with hdd
      rw [← hdd]

theorem registerResultState_decos (s : AddonState) (cmd : TerminalCommand) (b : Bool)
    (m : Nat) (theme : ThemeColors) :
    (registerResultState s cmd b m theme).decos =
      (clearPlaceholder s).decos ++
        [((clearPlaceholder s).nextDecoId, mkDecoration (clearPlaceholder s) cmd b m theme)] := by
  unfold registerResultState
  cases b <;> rfl

theorem registerResultState_placeholder (s : AddonState) (cmd : TerminalCommand) (b : Bool)
    (m : Nat) (theme : ThemeColors) :
    (registerResultState s cmd b m theme).placeholderDecoration =
      if b = true then some (clearPlaceholder s).nextDecoId else none := by
  unfold registerResultState
  cases b with
  | true => rfl
  | false => simp [(clearPlaceholder_fields s).1]

/-- A successful registration keeps the previously referenced placeholder
disposed: the freshly appended decoration lives at a larger id. -/
theorem registerResultState_disposes (s : AddonState) (cmd : TerminalCommand) (b : Bool)
    (m : Nat) (theme : ThemeColors) (id : Nat)
    (hp : s.placeholderDecoration = some id) (hlt : id < s.nextDecoId) :
    decoDisposed (registerResultState s cmd b m theme) id := by
  intro d hd
  rw [registerResultState_decos] at hd
  cases hl : alLookup (clearPlaceholder s).decos id with
  | some d0 =>
      rw [alLookup_append_of_some _ hl] at hd
      injection hd with hdd
      rw [← hdd]
      exact clearPlaceholder_disposes s id hp d0 hl
  | none =>
      rw [alLookup_append_of_none _ hl, alLookup_cons] at hd
      have hn : (clearPlaceholder s).nextDecoId = s.nextDecoId :=
        (clearPlaceholder_fields s).2.2.2.2.2.2.2.1
      have hne : ¬ ((clearPlaceholder s).nextDecoId, mkDecoration (clearPlaceholder s) cmd b m theme).1 = id := by
        intro hh
        rw [show ((clearPlaceholder s).nextDecoId, mkDecoration (clearPlaceholder s) cmd b m theme).1 = (clearPlaceholder s).nextDecoId from rfl, hn] at hh
        omega
      rw [if_neg hne] at hd
      simp [alLookup_nil] at hd

/-! ## Claim theorems: pure components -/

/-- C5: the class set assigned by the Style Resolver is the stated function of
`(exitCode, genericMarkProperties)`: with no exit code and no generic mark it
contains the `default` and `default-color` tokens plus the configured default
icon; with exit code 0 it contains the configured success icon and not the
error token; with a defined non-zero exit code it contains the error token and
the configured error icon; with a generic mark it contains the fixed generic
icon, plus the pointer-disabling `default` class when the mark carries no hover
text. -/
theorem c5_style_resolver (cfg : IconConfig) (exitCode : Option Int)
    (gmp : Option GenericMarkProperties) :
    (exitCode = none → gmp = none →
      selDefault ∈ updateClassesResult cfg exitCode gmp ∧
      selDefaultColor ∈ updateClassesResult cfg exitCode gmp ∧
      ("codicon-" ++ cfg.defaultIcon) ∈ updateClassesResult cfg exitCode gmp) ∧
    (exitCode = some 0 → gmp = none →
      ("codicon-" ++ cfg.successIcon) ∈ updateClassesResult cfg exitCode gmp ∧
      selErrorColor ∉ updateClassesResult cfg exitCode gmp) ∧
    (∀ c : Int, exitCode = some c → c ≠ 0 → gmp = none →
      selErrorColor ∈ updateClassesResult cfg exitCode gmp ∧
      ("codicon-" ++ cfg.errorIcon) ∈ updateClassesResult cfg exitCode gmp) ∧
    (∀ g, gmp = some g →
      selGenericMarkerIcon ∈ updateClassesResult cfg exitCode gmp ∧
      (strFalsy g.hoverMessage = true → selDefault ∈ updateClassesResult cfg exitCode gmp)) := by
  refine ⟨?_, ?_, ?_, ?_⟩
  · rintro rfl rfl
    simp [updateClassesResult]
  · rintro rfl rfl
    refine ⟨by simp [updateClassesResult], ?_⟩
    simp only [updateClassesResult]
    norm_num
    refine ⟨by decide, by decide, by decide, ?_⟩
    exact fun h => codicon_ne_error _ h.symm
  · rintro c rfl hc rfl
    simp [updateClassesResult, hc]
  · rintro g rfl
    refine ⟨by simp [updateClassesResult], fun hf => ?_⟩
    simp [updateClassesResult, hf]

/-- C5 witness: the theorem applied at a concrete configuration, exit codes
and marks, with every hypothesis discharged. -/
theorem c5_style_resolver_witness :
    (selDefault ∈ updateClassesResult ⟨"di", "si", "ei"⟩ none none ∧
      selDefaultColor ∈ updateClassesResult ⟨"di", "si", "ei"⟩ none none ∧
      ("codicon-" ++ "di") ∈ updateClassesResult ⟨"di", "si", "ei"⟩ none none) ∧
    (("codicon-" ++ "si") ∈ updateClassesResult ⟨"di", "si", "ei"⟩ (some 0) none ∧
      selErrorColor ∉ updateClassesResult ⟨"di", "si", "ei"⟩ (some 0) none) ∧
    (selErrorColor ∈ updateClassesResult ⟨"di", "si", "ei"⟩ (some 2) none ∧
      ("codicon-" ++ "ei") ∈ updateClassesResult ⟨"di", "si", "ei"⟩ (some 2) none) ∧
    (selGenericMarkerIcon ∈ updateClassesResult ⟨"di", "si", "ei"⟩ none (some ⟨none⟩) ∧
      selDefault ∈ updateClassesResult ⟨"di", "si", "ei"⟩ none (some ⟨none⟩)) :=
  ⟨(c5_style_resolver ⟨"di", "si", "ei"⟩ none none).1 rfl rfl,
   (c5_style_resolver ⟨"di", "si", "ei"⟩ (some 0) none).2.1 rfl rfl,
   (c5_style_resolver ⟨"di", "si", "ei"⟩ (some 2) none).2.2.1 2 rfl (by decide) rfl,
   ⟨((c5_style_resolver ⟨"di", "si", "ei"⟩ none (some ⟨none⟩)).2.2.2 ⟨none⟩ rfl).1,
    ((c5_style_resolver ⟨"di", "si", "ei"⟩ none (some ⟨none⟩)).2.2.2 ⟨none⟩ rfl).2 rfl⟩⟩

/-- C6 counterexample: for a command with empty text and no output the click
handler builds `[learn more]` with no separator before it, while the claim
demands a final separator before the learn-more action in every case. -/
theorem c6_counterexample :
    getCommandActions "" false = [CommandAction.learnShellIntegration] ∧
    getCommandActions "" false ≠ specActionList "" false := by
  constructor
  · rfl
  · decide

/-- C6 amended: the action list matches the claimed
`[rerun, copy command, (separator, copy output, copy output as HTML)?,
separator, learn more]` shape whenever the command text is non-empty; when the
text is empty the separators are omitted because nothing precedes them (and
with no output the list is just the learn-more action).  In particular a
command with non-empty text and output present yields exactly the seven-item
list. -/
theorem c6_action_list_amended (text : String) (hasOutput : Bool) :
    (getCommandActions text hasOutput =
      if text ≠ "" then specActionList text hasOutput
      else if hasOutput then
        [CommandAction.copyOutput, CommandAction.copyOutputAsHtml,
         CommandAction.separator, CommandAction.learnShellIntegration]
      else [CommandAction.learnShellIntegration]) ∧
    getCommandActions "b" true =
      [CommandAction.rerunCommand, CommandAction.copyCommand, CommandAction.separator,
       CommandAction.copyOutput, CommandAction.copyOutputAsHtml, CommandAction.separator,
       CommandAction.learnShellIntegration] := by
  constructor
  · by_cases h : text = "" <;> cases hasOutput <;>
      simp [getCommandActions, specActionList, h]
  · decide

/-- C7: the Layout Calculator scales uniformly by
`min (fontSize / defaultFontSize) 1`: width, height (times line height) and
font size are 16 times the scalar and the left margin is −17 times the scalar;
at scalar 1/2 and line height 6/5 this gives width 8, height 9.6, font size 8
and margin −8.5. -/
theorem c7_layout_calculator :
    (∀ fontSize defaultFontSize lineHeight : ℚ,
      updateLayoutResult fontSize defaultFontSize lineHeight =
        { width := min (fontSize / defaultFontSize) 1 * 16
          height := min (fontSize / defaultFontSize) 1 * 16 * lineHeight
          fontSize := min (fontSize / defaultFontSize) 1 * 16
          marginLeft := min (fontSize / defaultFontSize) 1 * (-17) }) ∧
    updateLayoutResult 7 14 (6 / 5) =
      { width := 8, height := 48 / 5, fontSize := 8, marginLeft := -(17 / 2) } := by
  constructor
  · intro fs dfs lh
    simp [updateLayoutResult, defaultDimension, marginLeftStyle, min_def]
  · norm_num [updateLayoutResult, defaultDimension, marginLeftStyle, LayoutResult.mk.injEq]

/-- C4: with an active terminal and decorations enabled, registering a final
(non-placeholder) decoration throws exactly when the command has no marker;
the expected-absence guards (no terminal, decorations disabled, placeholder
request for a generic mark) return no decoration and leave the state
untouched. -/
theorem c4_fatal_iff_no_marker (s : AddonState) (cmd : TerminalCommand)
    (b : Bool) (host : Nat → Bool) (theme : ThemeColors) :
    (s.terminal = true → s.decorationsDisabled = false →
      (isError (registerCommandDecoration s cmd false host theme) = true ↔ cmd.marker = none)) ∧
    (s.terminal = false →
      registerCommandDecoration s cmd b host theme = .ok (none, s)) ∧
    (s.decorationsDisabled = true →
      registerCommandDecoration s cmd b host theme = .ok (none, s)) ∧
    (cmd.genericMarkProperties.isSome = true →
      registerCommandDecoration s cmd true host theme = .ok (none, s)) := by
  refine ⟨?_, ?_, ?_, ?_⟩
  · intro ht hd
    cases hm : cmd.marker with
    | none => simp [registerCommandDecoration, ht, hd, hm, isError]
    | some m =>
        cases hh : host m <;>
          simp [registerCommandDecoration, ht, hd, hm, hh, isError]
  · intro h
    simp [registerCommandDecoration, h]
  · intro h
    simp [registerCommandDecoration, h]
  · intro h
    simp [registerCommandDecoration, h]

/-- C10: every `registerCommandDecoration` call that passes the
no-terminal/disabled/generic-mark guards and has a marker disposes the
currently referenced placeholder — also for final (non-placeholder)
registrations and when the host fails to create the new decoration — and
afterwards the placeholder reference is `none` unless this very call created a
new placeholder (which then lives at the freshly allocated id). -/
theorem c10_register_clears_placeholder (s s' : AddonState) (cmd : TerminalCommand)
    (b : Bool) (host : Nat → Bool) (theme : ThemeColors) (r : Option Nat)
    (hterm : s.terminal = true) (hdis : s.decorationsDisabled = false)
    (hguard : ¬ (b = true ∧ cmd.genericMarkProperties.isSome = true))
    (hm : cmd.marker.isSome = true)
    (href : ∀ id, s.placeholderDecoration = some id → id < s.nextDecoId)
    (hrun : registerCommandDecoration s cmd b host theme = .ok (r, s')) :
    (∀ id, s.placeholderDecoration = some id → decoDisposed s' id) ∧
    (s'.placeholderDecoration = none ∨
      (b = true ∧ s'.placeholderDecoration = some s.nextDecoId)) := by
  rcases register_cases s cmd b host theme r s' hrun with ⟨hc, _, _⟩ | ⟨m, hm2, hcase⟩
  · rcases hc with hc | hc | hc
    · exact absurd hterm hc
    · exact absurd hc hguard
    · rw [hdis] at hc
      simp at hc
  · rcases hcase with ⟨_, _, hs⟩ | ⟨_, _, hs⟩
    · subst hs
      exact ⟨fun id hp => clearPlaceholder_disposes s id hp,
        Or.inl (clearPlaceholder_fields s).1⟩
    · subst hs
      refine ⟨fun id hp => registerResultState_disposes s cmd b m theme id hp (href id hp), ?_⟩
      rw [registerResultState_placeholder]
      cases b with
      | false => exact Or.inl (by simp)
      | true =>
          refine Or.inr ⟨rfl, ?_⟩
          rw [if_pos rfl, (clearPlaceholder_fields s).2.2.2.2.2.2.2.1]

/-- C10 witness: registering a final decoration for a second command while the
`demoCmd` placeholder is live disposes that placeholder and clears the
reference (the host creating the new decoration). -/
theorem c10_register_clears_placeholder_witness :
    decoDisposed
      (match registerCommandDecoration demoPlaceholderState demoCmd2 false demoHost demoTheme with
        | .ok (_, s) => s
        | .error _ => demoPlaceholderState) 0 ∧
    ((match registerCommandDecoration demoPlaceholderState demoCmd2 false demoHost demoTheme with
        | .ok (_, s) => s
        | .error _ => demoPlaceholderState).placeholderDecoration = none ∨
      (false = true ∧
        (match registerCommandDecoration demoPlaceholderState demoCmd2 false demoHost demoTheme with
          | .ok (_, s) => s
          | .error _ => demoPlaceholderState).placeholderDecoration =
          some demoPlaceholderState.nextDecoId)) := by
  have h := c10_register_clears_placeholder demoPlaceholderState _ demoCmd2 false demoHost
    demoTheme (some 1) rfl rfl (by simp) rfl
    (fun id hp => by
      have h0 : demoPlaceholderState.placeholderDecoration = some 0 := rfl
      rw [h0] at hp
      injection hp with hp2
      rw [← hp2]
      decide)
    rfl
  exact ⟨h.1 0 rfl, h.2⟩

/-- C4 witness: the theorem applied at concrete states and commands. -/
theorem c4_fatal_iff_no_marker_witness :
    (isError (registerCommandDecoration activatedState
        { demoCmd with marker := none } false demoHost demoTheme) = true ↔
      ({ demoCmd with marker := none } : TerminalCommand).marker = none) ∧
    (registerCommandDecoration initialAddonState demoCmd false demoHost demoTheme =
      .ok (none, initialAddonState)) ∧
    (registerCommandDecoration { activatedState with decorationsDisabled := true }
        demoCmd false demoHost demoTheme =
      .ok (none, { activatedState with decorationsDisabled := true })) ∧
    (registerCommandDecoration activatedState
        { demoCmd with genericMarkProperties := some ⟨none⟩ } true demoHost demoTheme =
      .ok (none, activatedState)) :=
  ⟨(c4_fatal_iff_no_marker activatedState { demoCmd with marker := none }
      false demoHost demoTheme).1 rfl rfl,
   (c4_fatal_iff_no_marker initialAddonState demoCmd false demoHost demoTheme).2.1 rfl,
   (c4_fatal_iff_no_marker { activatedState with decorationsDisabled := true }
      demoCmd false demoHost demoTheme).2.2.1 rfl,
   (c4_fatal_iff_no_marker activatedState
      { demoCmd with genericMarkProperties := some ⟨none⟩ } true demoHost demoTheme).2.2.2 rfl⟩

/-- C9 counterexample: in exactly the claimed scenario — one placeholder entry
(marker 10), zero finished entries — the NoProblemsReported invalidation
empties the registry, but the placeholder reference is not `none` afterwards:
the handler only disposes the decoration of the last entry and never calls
`_clearPlaceholder`, so the reference keeps pointing at the disposed
decoration. -/
theorem c9_counterexample :
    demoRendered.decorationsMap.map Prod.fst = [10] ∧
    demoRendered.placeholderDecoration = some 0 ∧
    (currentCommandInvalidated demoRendered .noProblemsReported).decorationsMap = [] ∧
    ¬ (currentCommandInvalidated demoRendered .noProblemsReported).placeholderDecoration
        = none := by
  decide

/-- C9 amended: with one placeholder entry and zero finished entries, a
NoProblemsReported invalidation disposes the placeholder decoration and leaves
the keyed map empty; the placeholder reference however remains set (pointing at
the disposed decoration) and is only cleared by a later placeholder clear. -/
theorem c9_no_problems_amended (s : AddonState) (m pid : Nat) (e : Entry) (d : Decoration)
    (hmap : s.decorationsMap = [(m, e)])
    (hdec : e.decoration = pid)
    (href : s.placeholderDecoration = some pid)
    (hd : alLookup s.decos pid = some d)
    (hlive : d.disposed = false) (hhook : d.hasDisposeHook = true) (hmid : d.markerId = m) :
    (currentCommandInvalidated s .noProblemsReported).decorationsMap = [] ∧
    decoDisposed (currentCommandInvalidated s .noProblemsReported) pid ∧
    (currentCommandInvalidated s .noProblemsReported).placeholderDecoration = some pid := by
  have hlast : s.decorationsMap.getLast? = some (m, e) := by
    rw [hmap]
    rfl
  have hcur : currentCommandInvalidated s .noProblemsReported = disposeDecoration s pid := by
    unfold currentCommandInvalidated
    rw [hlast]
    dsimp only
    rw [hdec]
  rw [hcur]
  refine ⟨?_, ?_, ?_⟩
  · have hmap2 : (disposeDecoration s pid).decorationsMap = alErase s.decorationsMap d.markerId := by
      simp [disposeDecoration, hd, hlive, hhook]
    rw [hmap2, hmap, hmid, alErase_cons_self m e [] (by simp)]
  · intro d2 hd2
    rw [disposeDecoration_decos_lookup, if_pos rfl, hd] at hd2
    injection hd2 with h2
    rw [← h2]
  · rw [(disposeDecoration_fields s pid).1, href]

/-- C9 witness: the amended theorem applied to the concrete one-placeholder
state built from `demoCmd`. -/
theorem c9_no_problems_amended_witness :
    (currentCommandInvalidated demoRendered .noProblemsReported).decorationsMap = [] ∧
    decoDisposed (currentCommandInvalidated demoRendered .noProblemsReported) 0 ∧
    (currentCommandInvalidated demoRendered .noProblemsReported).placeholderDecoration
      = some 0 :=
  c9_no_problems_amended demoRendered 10 0 ⟨0, none, none⟩
    { markerId := 10, rulerOpts := none, disposed := false, hasDisposeHook := true
      createdAsPlaceholder := true, cmd := demoCmd } rfl rfl rfl rfl rfl rfl rfl

/-! ## C1: the placeholder-uniqueness invariant -/

theorem length_le_one_of_all_eq {l : List Nat} (hn : l.Nodup)
    (h : ∀ x ∈ l, ∀ y ∈ l, x = y) : l.length ≤ 1 := by
  cases l with
  | nil => simp
  | cons a t =>
      cases t with
      | nil => simp
      | cons b u =>
          exfalso
          rw [List.nodup_cons] at hn
          have hab : a = b :=
            h a (List.mem_cons_self _ _) b (List.mem_cons_of_mem _ (List.mem_cons_self _ _))
          exact hn.1 (hab ▸ List.mem_cons_self b u)

theorem mem_livePlaceholderKeys {s : AddonState} {k : Nat} :
    k ∈ livePlaceholderKeys s ↔
      ∃ d, (k, d) ∈ s.decos ∧ d.createdAsPlaceholder = true ∧ d.disposed = false := by
  unfold livePlaceholderKeys
  constructor
  · intro h
    rcases List.mem_map.mp h with ⟨p, hp, he⟩
    rcases List.mem_filter.mp hp with ⟨hmem, hcond⟩
    rw [Bool.and_eq_true, Bool.not_eq_true'] at hcond
    refine ⟨p.2, ?_, hcond.1, hcond.2⟩
    rw [← he]
    exact hmem
  · rintro ⟨d, hm, h1, h2⟩
    exact List.mem_map.mpr
      ⟨(k, d), List.mem_filter.mpr ⟨hm, by simp [h1, h2]⟩, rfl⟩

theorem livePlaceholderKeys_nodup {s : AddonState} (h : (decoKeys s).Nodup) :
    (livePlaceholderKeys s).Nodup := by
  unfold livePlaceholderKeys decoKeys at *
  exact ((List.filter_sublist _).map Prod.fst).nodup h

theorem disposeDecoration_decoKeys (s : AddonState) (id : Nat) :
    decoKeys (disposeDecoration s id) = decoKeys s := by
  unfold disposeDecoration decoKeys
  cases hl : alLookup s.decos id with
  | none => rfl
  | some d =>
      cases hd : d.disposed <;> cases hh : d.hasDisposeHook <;>
        simp [hd, hh, alUpdate_map_fst]

theorem clearPlaceholder_decoKeys (s : AddonState) :
    decoKeys (clearPlaceholder s) = decoKeys s := by
  cases hp : s.placeholderDecoration with
  | none => simp [decoKeys, clearPlaceholder, hp]
  | some id =>
      have h1 : (clearPlaceholder s).decos = (disposeDecoration s id).decos :=
        clearPlaceholder_decos_some s id hp
      unfold decoKeys
      rw [h1]
      exact disposeDecoration_decoKeys s id

/-- Clearing the placeholder leaves no live placeholder-created decoration,
provided every live placeholder-created decoration was the referenced one. -/
theorem clearPlaceholder_live (s : AddonState)
    (hnodup : (decoKeys s).Nodup)
    (hall : ∀ k ∈ livePlaceholderKeys s, s.placeholderDecoration = some k) :
    livePlaceholderKeys (clearPlaceholder s) = [] := by
  rw [List.eq_nil_iff_forall_not_mem]
  intro k hk
  rcases mem_livePlaceholderKeys.mp hk with ⟨d, hmem, hcp, hdisp⟩
  cases hp : s.placeholderDecoration with
  | none =>
      have hdecos : (clearPlaceholder s).decos = s.decos := by simp [clearPlaceholder, hp]
      rw [hdecos] at hmem
      have h2 := hall k (mem_livePlaceholderKeys.mpr ⟨d, hmem, hcp, hdisp⟩)
      rw [hp] at h2
      cases h2
  | some pid =>
      have hdecos : (clearPlaceholder s).decos = (disposeDecoration s pid).decos :=
        clearPlaceholder_decos_some s pid hp
      rw [hdecos] at hmem
      cases hl : alLookup s.decos pid with
      | none =>
          have heq : (disposeDecoration s pid).decos = s.decos := by
            simp [disposeDecoration, hl]
          rw [heq] at hmem
          have h2 := hall k (mem_livePlaceholderKeys.mpr ⟨d, hmem, hcp, hdisp⟩)
          rw [hp] at h2
          injection h2 with h3
          rw [alLookup_eq_none] at hl
          exact hl (h3 ▸ (List.mem_map.mpr ⟨(k, d), hmem, rfl⟩))
      | some d0 =>
          cases hd0 : d0.disposed with
          | true =>
              have heq : (disposeDecoration s pid).decos = s.decos := by
                simp [disposeDecoration, hl, hd0]
              rw [heq] at hmem
              have h2 := hall k (mem_livePlaceholderKeys.mpr ⟨d, hmem, hcp, hdisp⟩)
              rw [hp] at h2
              injection h2 with h3
              have hlk := alLookup_of_mem_nodup hnodup hmem
              rw [← h3, hl] at hlk
              injection hlk with h4
              rw [h4] at hd0
              rw [hd0] at hdisp
              cases hdisp
          | false =>
              have heq : (disposeDecoration s pid).decos =
                  alUpdate s.decos pid (fun d => { d with disposed := true }) := by
                cases hh : d0.hasDisposeHook <;> simp [disposeDecoration, hl, hd0, hh]
              rw [heq] at hmem
              rcases mem_alUpdate hmem with ⟨hk1, v, hv, he⟩ | ⟨hk1, hmem2⟩
              · dsimp only at he
                rw [he] at hdisp
                simp at hdisp
              · have h2 := hall k (mem_livePlaceholderKeys.mpr ⟨d, hmem2, hcp, hdisp⟩)
                rw [hp] at h2
                injection h2 with h3
                exact hk1 h3.symm

/-- `registerCommandDecoration` preserves the placeholder invariant. -/
theorem placeholderInv_register (s s' : AddonState) (cmd : TerminalCommand) (b : Bool)
    (host : Nat → Bool) (theme : ThemeColors) (r : Option Nat)
    (hinv : PlaceholderInv s)
    (h : registerCommandDecoration s cmd b host theme = .ok (r, s')) :
    PlaceholderInv s' := by
  obtain ⟨hnodup, hbound, hall⟩ := hinv
  rcases register_cases s cmd b host theme r s' h with ⟨_, _, hs⟩ | ⟨m, hm, hcase⟩
  · rw [hs]
    exact ⟨hnodup, hbound, hall⟩
  · have hck : decoKeys (clearPlaceholder s) = decoKeys s := clearPlaceholder_decoKeys s
    have hcn : (clearPlaceholder s).nextDecoId = s.nextDecoId :=
      (clearPlaceholder_fields s).2.2.2.2.2.2.2.1
    have hlive0 : livePlaceholderKeys (clearPlaceholder s) = [] :=
      clearPlaceholder_live s hnodup hall
    rcases hcase with ⟨_, _, hs⟩ | ⟨_, _, hs⟩
    · rw [hs]
      refine ⟨by rw [hck]; exact hnodup, ?_, ?_⟩
      · intro k hk
        rw [hck] at hk
        rw [hcn]
        exact hbound k hk
      · intro k hk
        rw [hlive0] at hk
        cases hk
    · rw [hs]
      have hdecos := registerResultState_decos s cmd b m theme
      have hkeys : decoKeys (registerResultState s cmd b m theme) =
          decoKeys s ++ [s.nextDecoId] := by
        unfold decoKeys
        rw [hdecos, List.map_append]
        rw [show (clearPlaceholder s).decos.map Prod.fst = decoKeys (clearPlaceholder s)
          from rfl, hck, hcn]
        rfl
      have hnext : (registerResultState s cmd b m theme).nextDecoId = s.nextDecoId + 1 := by
        unfold registerResultState
        cases b <;> simp [hcn]
      refine ⟨?_, ?_, ?_⟩
      · rw [hkeys, List.nodup_append]
        refine ⟨hnodup, List.nodup_singleton _, ?_⟩
        intro a ha hb
        rw [List.mem_singleton] at hb
        have := hbound a ha
        omega
      · intro k hk
        rw [hkeys] at hk
        rw [hnext]
        rcases List.mem_append.mp hk with hk | hk
        · exact Nat.lt_succ_of_lt (hbound k hk)
        · rw [List.mem_singleton] at hk
          omega
      · intro k hk
        rcases mem_livePlaceholderKeys.mp hk with ⟨d, hmem, hcp, hdisp⟩
        rw [hdecos] at hmem
        rcases List.mem_append.mp hmem with hmem | hmem
        · exact absurd (mem_livePlaceholderKeys.mpr ⟨d, hmem, hcp, hdisp⟩)
            (by rw [hlive0]; simp)
        · rw [List.mem_singleton, Prod.mk.injEq] at hmem
          obtain ⟨hk1, hd1⟩ := hmem
          have hb : b = true := by
            rw [hd1] at hcp
            exact hcp
          rw [registerResultState_placeholder, if_pos hb, hk1]

/-- The started-event handler preserves the placeholder invariant. -/
theorem placeholderInv_runStarted (theme : ThemeColors) (events : List StartedEvent) :
    ∀ s s' : AddonState, PlaceholderInv s →
      runStartedEvents s theme events = .ok s' → PlaceholderInv s' := by
  induction events with
  | nil =>
      intro s s' hinv h
      simp only [runStartedEvents, List.foldlM_nil] at h
      injection h with h2
      rw [← h2]
      exact hinv
  | cons e t ih =>
      intro s s' hinv h
      simp only [runStartedEvents, List.foldlM_cons] at h
      cases hreg : registerCommandDecoration s e.command true e.host theme with
      | error msg =>
          rw [show runStartedEvent s theme e =
            (registerCommandDecoration s e.command true e.host theme).map (·.2) from rfl,
            hreg] at h
          have hred : (do
              let init ← (Except.error msg : Except String AddonState)
              List.foldlM (fun x1 x2 => runStartedEvent x1 theme x2) init t) =
              (Except.error msg : Except String AddonState) := rfl
          rw [show (Except.error msg : Except String (Option Nat × AddonState)).map (·.2) =
            (Except.error msg : Except String AddonState) from rfl, hred] at h
          cases h
      | ok p =>
          obtain ⟨r, s1⟩ := p
          rw [show runStartedEvent s theme e =
            (registerCommandDecoration s e.command true e.host theme).map (·.2) from rfl,
            hreg] at h
          simp only [Except.map] at h
          exact ih s1 s'
            (placeholderInv_register s s1 e.command true e.host theme r hinv hreg) h

/-- C1: after any sequence of command-started events (each handled by
`registerCommandDecoration` with the placeholder flag), at most one live
placeholder-created decoration exists, and it is exactly the one referenced by
`_placeholderDecoration`; creating a new placeholder always disposes the prior
one first, which is what keeps the count at one. -/
theorem c1_placeholder_invariant (theme : ThemeColors) (events : List StartedEvent)
    (s' : AddonState)
    (h : runStartedEvents activatedState theme events = .ok s') :
    (livePlaceholderKeys s').length ≤ 1 ∧
    ∀ k ∈ livePlaceholderKeys s', s'.placeholderDecoration = some k := by
  have hinv0 : PlaceholderInv activatedState := by
    refine ⟨?_, ?_, ?_⟩ <;> simp [activatedState, initialAddonState, decoKeys,
      livePlaceholderKeys]
  have hinv := placeholderInv_runStarted theme events activatedState s' hinv0 h
  refine ⟨?_, hinv.2.2⟩
  refine length_le_one_of_all_eq (livePlaceholderKeys_nodup hinv.1) ?_
  intro x hx y hy
  have h1 := hinv.2.2 x hx
  have h2 := hinv.2.2 y hy
  rw [h1] at h2
  injection h2

/-- C1 witness: two consecutive command-started events from the activated
state leave exactly one live placeholder, namely the second one (id 1). -/
theorem c1_placeholder_invariant_witness :
    (livePlaceholderKeys demoStartedState).length ≤ 1 ∧
    demoStartedState.placeholderDecoration = some 1 :=
  ⟨(c1_placeholder_invariant demoTheme demoStartedEvents demoStartedState rfl).1,
   (c1_placeholder_invariant demoTheme demoStartedEvents demoStartedState rfl).2 1 (by decide)⟩

/-! ## C2: subscription lemmas -/

theorem pushListener_subs (s : AddonState) (t : EventType) :
    (pushListener s t).subs = s.subs ++ [(s.nextSubId, { eventType := t, active := true })] := rfl

theorem pushListener_nextSubId (s : AddonState) (t : EventType) :
    (pushListener s t).nextSubId = s.nextSubId + 1 := rfl

theorem pushListener_listeners (s : AddonState) (t : EventType) :
    (pushListener s t).commandDetectionListeners =
      some ((s.commandDetectionListeners.getD []) ++ [s.nextSubId]) := rfl

theorem registerResultState_subsFields (s : AddonState) (cmd : TerminalCommand) (b : Bool)
    (m : Nat) (theme : ThemeColors) :
    (registerResultState s cmd b m theme).subs = s.subs ∧
    (registerResultState s cmd b m theme).nextSubId = s.nextSubId ∧
    (registerResultState s cmd b m theme).commandDetectionListeners =
      s.commandDetectionListeners := by
  have hc := clearPlaceholder_fields s
  unfold registerResultState
  cases b <;>
    exact ⟨hc.2.2.2.2.1, hc.2.2.2.2.2.1, hc.2.2.2.2.2.2.1⟩

theorem register_subsFields (s s' : AddonState) (cmd : TerminalCommand) (b : Bool)
    (host : Nat → Bool) (theme : ThemeColors) (r : Option Nat)
    (h : registerCommandDecoration s cmd b host theme = .ok (r, s')) :
    s'.subs = s.subs ∧ s'.nextSubId = s.nextSubId ∧
    s'.commandDetectionListeners = s.commandDetectionListeners := by
  have hc := clearPlaceholder_fields s
  rcases register_cases s cmd b host theme r s' h with ⟨_, _, hs⟩ | ⟨m, _, ⟨_, _, hs⟩ | ⟨_, _, hs⟩⟩
  · rw [hs]
    exact ⟨rfl, rfl, rfl⟩
  · rw [hs]
    exact ⟨hc.2.2.2.2.1, hc.2.2.2.2.2.1, hc.2.2.2.2.2.2.1⟩
  · rw [hs]
    exact registerResultState_subsFields s cmd b m theme

theorem registerRun_subsFields (s s' : AddonState) (cmd : TerminalCommand) (b : Bool)
    (host : Nat → Bool) (theme : ThemeColors)
    (h : registerRun s cmd b host theme = .ok s') :
    s'.subs = s.subs ∧ s'.nextSubId = s.nextSubId ∧
    s'.commandDetectionListeners = s.commandDetectionListeners := by
  unfold registerRun at h
  cases hreg : registerCommandDecoration s cmd b host theme with
  | error m =>
      rw [hreg] at h
      cases h
  | ok p =>
      rw [hreg] at h
      injection h with h2
      obtain ⟨r, s1⟩ := p
      have h3 : s1 = s' := h2
      rw [← h3]
      exact register_subsFields s s1 cmd b host theme r hreg

theorem registerList_subsFields (host : Nat → Bool) (theme : ThemeColors)
    (cmds : List TerminalCommand) :
    ∀ s s' : AddonState,
      cmds.foldlM (fun s command => registerRun s command false host theme) s = .ok s' →
      s'.subs = s.subs ∧ s'.nextSubId = s.nextSubId ∧
      s'.commandDetectionListeners = s.commandDetectionListeners := by
  induction cmds with
  | nil =>
      intro s s' h
      simp only [List.foldlM_nil] at h
      injection h with h2
      rw [← h2]
      exact ⟨rfl, rfl, rfl⟩
  | cons c t ih =>
      intro s s' h
      simp only [List.foldlM_cons] at h
      cases hreg : registerRun s c false host theme with
      | error m =>
          rw [hreg] at h
          cases h
      | ok s1 =>
          rw [hreg] at h
          have h1 := registerRun_subsFields s s1 c false host theme hreg
          have h2 := ih s1 s' h
          exact ⟨h2.1.trans h1.1, h2.2.1.trans h1.2.1, h2.2.2.trans h1.2.2⟩

theorem disposeSubs_noActive (s : AddonState) (ids : List Nat)
    (hcov : ∀ p ∈ s.subs, p.2.active = true → p.1 ∈ ids) :
    ∀ p ∈ (disposeSubs s ids).subs, p.2.active = false := by
  intro p hp
  unfold disposeSubs at hp
  rcases List.mem_map.mp hp with ⟨q, hq, he⟩
  by_cases hm : q.1 ∈ ids
  · rw [if_pos hm] at he
    rw [← he]
  · rw [if_neg hm] at he
    cases ha : q.2.active with
    | false =>
        rw [← he]
        exact ha
    | true => exact absurd (hcov q hq ha) hm

theorem activeSubsOfType_eq_of_subs {s s' : AddonState} (h : s'.subs = s.subs)
    (t : EventType) : activeSubsOfType s' t = activeSubsOfType s t := by
  unfold activeSubsOfType
  rw [h]

theorem activeSubsOfType_nil_of_noActive (s : AddonState)
    (h : ∀ p ∈ s.subs, p.2.active = false) (t : EventType) :
    activeSubsOfType s t = [] := by
  unfold activeSubsOfType
  have hf : s.subs.filter (fun p => p.2.active && p.2.eventType == t) = [] := by
    rw [List.filter_eq_nil_iff]
    intro a ha
    simp [h a ha]
  rw [hf]
  rfl

theorem activeSubsOfType_push (s : AddonState) (t t' : EventType) :
    activeSubsOfType (pushListener s t) t' =
      activeSubsOfType s t' ++ (if t' = t then [s.nextSubId] else []) := by
  unfold activeSubsOfType
  rw [pushListener_subs, List.filter_append, List.map_append]
  congr 1
  by_cases h : t' = t
  · rw [if_pos h, h]
    simp
  · rw [if_neg h]
    have : ¬ (t = t') := fun hh => h hh.symm
    simp [this]

theorem except_bind_error {α β : Type} (m : String) (f : α → Except String β) :
    ((Except.error m : Except String α) >>= f) = Except.error m := rfl

theorem except_bind_ok {α β : Type} (a : α) (f : α → Except String β) :
    ((Except.ok a : Except String α) >>= f) = f a := rfl

theorem except_bind_pure {α β : Type} (a : α) (f : α → Except String β) :
    ((pure a : Except String α) >>= f) = f a := rfl

/-- After a dispose pass left no active subscription, the started-push, the
finished-command replay and the remaining three pushes produce exactly one
active subscription per event type, all held in the listener list. -/
theorem binderInv_after_pushes (s1 : AddonState) (cmds : List TerminalCommand)
    (host : Nat → Bool) (theme : ThemeColors) (s' : AddonState)
    (hno : ∀ p ∈ s1.subs, p.2.active = false)
    (hl : s1.commandDetectionListeners = some [])
    (h : (do
        let s := pushListener s1 .commandStarted
        let s ← cmds.foldlM (fun s command => registerRun s command false host theme) s
        let s := pushListener s .commandFinished
        let s := pushListener s .commandInvalidated
        let s := pushListener s .currentCommandInvalidated
        pure s : Except String AddonState) = .ok s') :
    BinderInv s' := by
  dsimp only at h
  cases hfold : cmds.foldlM (fun s command => registerRun s command false host theme)
      (pushListener s1 .commandStarted) with
  | error m =>
      rw [hfold, except_bind_error] at h
      cases h
  | ok s3 =>
      rw [hfold, except_bind_ok] at h
      injection h with h2
      have hfs := registerList_subsFields host theme cmds (pushListener s1 .commandStarted) s3 hfold
      have hn3 : s3.nextSubId = s1.nextSubId + 1 := by
        rw [hfs.2.1, pushListener_nextSubId]
      have hls3 : s3.commandDetectionListeners = some [s1.nextSubId] := by
        rw [hfs.2.2, pushListener_listeners, hl]
        rfl
      constructor
      · intro p hp hact
        rw [← h2] at hp ⊢
        rw [pushListener_subs, pushListener_subs, pushListener_subs, pushListener_nextSubId,
          pushListener_nextSubId, hfs.1, pushListener_subs] at hp
        rw [pushListener_listeners, pushListener_listeners, pushListener_listeners,
          pushListener_nextSubId, pushListener_nextSubId, hls3, hn3]
        simp only [Option.getD_some, List.append_assoc]
        rcases List.mem_append.mp hp with hp | hp
        · rcases List.mem_append.mp hp with hp | hp
          · rcases List.mem_append.mp hp with hp | hp
            · rcases List.mem_append.mp hp with hp | hp
              · rw [hno p hp] at hact
                cases hact
              · rw [List.mem_singleton] at hp
                rw [hp]
                simp [pushListener_nextSubId, hn3]
            · rw [List.mem_singleton] at hp
              rw [hp]
              simp [pushListener_nextSubId, hn3]
          · rw [List.mem_singleton] at hp
            rw [hp]
            simp [pushListener_nextSubId, hn3]
        · rw [List.mem_singleton] at hp
          rw [hp]
          simp [pushListener_nextSubId, hn3]
      · intro t
        rw [← h2, activeSubsOfType_push, activeSubsOfType_push, activeSubsOfType_push,
          activeSubsOfType_eq_of_subs hfs.1, activeSubsOfType_push,
          activeSubsOfType_nil_of_noActive s1 hno]
        cases t <;> simp

/-- The body of `_addCommandDetectionListeners` after the initial dispose,
for a present capability, establishes the binder invariant whenever the
dispose pass left no active subscription. -/
theorem addCDL_inv_core (t0 : AddonState) (capability : CommandDetectionCapability)
    (host : Nat → Bool) (theme : ThemeColors) (s' : AddonState)
    (hno : ∀ p ∈ t0.subs, p.2.active = false)
    (h : (do
        let s := { t0 with commandDetectionListeners := some ([] : List Nat) }
        let s ←
          match capability.executingCommandObject with
          | some cmd =>
              if cmd.marker.isSome then registerRun s cmd true host theme else pure s
          | none => pure s
        let s := pushListener s .commandStarted
        let s ← capability.commands.foldlM
          (fun s command => registerRun s command false host theme) s
        let s := pushListener s .commandFinished
        let s := pushListener s .commandInvalidated
        let s := pushListener s .currentCommandInvalidated
        pure s : Except String AddonState) = .ok s') :
    BinderInv s' := by
  dsimp only at h
  cases hexec : capability.executingCommandObject with
  | none =>
      rw [hexec] at h
      dsimp only at h
      rw [except_bind_pure] at h
      exact binderInv_after_pushes
        { t0 with commandDetectionListeners := some ([] : List Nat) }
        capability.commands host theme s' hno rfl h
  | some cmd =>
      rw [hexec] at h
      dsimp only at h
      cases hmk : cmd.marker.isSome with
      | false =>
          rw [hmk, if_neg (by simp : ¬ (false = true))] at h
          rw [except_bind_pure] at h
          exact binderInv_after_pushes
            { t0 with commandDetectionListeners := some ([] : List Nat) }
            capability.commands host theme s' hno rfl h
      | true =>
          rw [hmk, if_pos rfl] at h
          cases hreg : registerRun { t0 with commandDetectionListeners := some ([] : List Nat) }
              cmd true host theme with
          | error m =>
              rw [hreg, except_bind_error] at h
              cases h
          | ok s2 =>
              rw [hreg, except_bind_ok] at h
              have hsf := registerRun_subsFields _ s2 cmd true host theme hreg
              refine binderInv_after_pushes s2 _ host theme s' ?_ ?_ h
              · intro p hp
                rw [hsf.1] at hp
                exact hno p hp
              · rw [hsf.2.2]

/-- The dispose pass at the head of `_addCommandDetectionListeners` leaves no
active subscription (every active one was held in the disposed list). -/
theorem dispose_match_noActive (s : AddonState) (hcov : ListenersCover s) :
    ∀ p ∈ (disposeOldListeners s).subs, p.2.active = false := by
  unfold disposeOldListeners
  intro p
  cases hls : s.commandDetectionListeners with
  | none =>
      intro hp
      cases ha : p.2.active with
      | false => rfl
      | true =>
          have hm := hcov p hp ha
          rw [hls] at hm
          simp at hm
  | some ids =>
      intro hp
      refine disposeSubs_noActive s ids ?_ p hp
      intro q hq ha
      have hm := hcov q hq ha
      rw [hls] at hm
      simpa using hm

/-- Rebinding (running `_addCommandDetectionListeners`) establishes the binder
invariant: the old subscriptions are disposed before the new ones are created,
so exactly the four fresh subscriptions are active. -/
theorem addCDL_inv (s : AddonState) (cap : Option CommandDetectionCapability)
    (host : Nat → Bool) (theme : ThemeColors) (s' : AddonState)
    (hcov : ListenersCover s)
    (h : addCommandDetectionListeners s cap host theme = .ok s') :
    BinderInv s' := by
  have hno := dispose_match_noActive s hcov
  unfold addCommandDetectionListeners at h
  cases cap with
  | none =>
      injection h with h2
      rw [← h2]
      constructor
      · intro p hp hact
        rw [hno p hp] at hact
        cases hact
      · intro t
        rw [activeSubsOfType_nil_of_noActive _ hno]
        simp
  | some capability =>
      exact addCDL_inv_core _ capability host theme s' hno h

/-- Unbinding (the capability-removed handler) preserves the binder
invariant: everything is disposed, leaving zero active subscriptions. -/
theorem unbind_inv (s : AddonState) (hinv : BinderInv s) :
    BinderInv (onCommandDetectionCapabilityRemoved s) := by
  unfold onCommandDetectionCapabilityRemoved
  cases hls : s.commandDetectionListeners with
  | none => exact hinv
  | some ids =>
      have hno : ∀ p ∈ (disposeSubs s ids).subs, p.2.active = false := by
        refine disposeSubs_noActive s ids ?_
        intro q hq ha
        have hm := hinv.1 q hq ha
        rw [hls] at hm
        simpa using hm
      constructor
      · intro p hp hact
        rw [hno p hp] at hact
        cases hact
      · intro t
        rw [show activeSubsOfType { disposeSubs s ids with commandDetectionListeners := none } t
          = activeSubsOfType (disposeSubs s ids) t from rfl]
        rw [activeSubsOfType_nil_of_noActive _ hno]
        simp

/-- Binder operations preserve the binder invariant. -/
theorem binderInv_runOps (ops : List BinderOp) :
    ∀ s s' : AddonState, BinderInv s → runBinderOps s ops = .ok s' → BinderInv s' := by
  induction ops with
  | nil =>
      intro s s' hinv h
      simp only [runBinderOps, List.foldlM_nil] at h
      injection h with h2
      rw [← h2]
      exact hinv
  | cons op t ih =>
      intro s s' hinv h
      simp only [runBinderOps, List.foldlM_cons] at h
      cases op with
      | rebind cap host theme =>
          cases hstep : addCommandDetectionListeners s cap host theme with
          | error m =>
              rw [show runBinderOp s (.rebind cap host theme) =
                addCommandDetectionListeners s cap host theme from rfl, hstep,
                except_bind_error] at h
              cases h
          | ok s1 =>
              rw [show runBinderOp s (.rebind cap host theme) =
                addCommandDetectionListeners s cap host theme from rfl, hstep,
                except_bind_ok] at h
              exact ih s1 s' (addCDL_inv s cap host theme s1 hinv.1 hstep) h
      | unbind =>
          rw [show runBinderOp s .unbind = pure (onCommandDetectionCapabilityRemoved s)
            from rfl, except_bind_pure] at h
          exact ih _ s' (unbind_inv s hinv) h

/-- C2: for every sequence of unbind and rebind operations on the Command
Event Binder (from the initial state), previously registered subscriptions are
disposed before new ones are registered, so at most one active subscription
per command-lifecycle event type remains — a single upstream event fires at
most one handler. -/
theorem c2_single_subscription_per_event (ops : List BinderOp) (s' : AddonState)
    (h : runBinderOps initialAddonState ops = .ok s') :
    ∀ t, (activeSubsOfType s' t).length ≤ 1 := by
  have hinv0 : BinderInv initialAddonState := by
    constructor
    · intro p hp
      simp [initialAddonState] at hp
    · intro t
      rw [show activeSubsOfType initialAddonState t = [] from rfl]
      simp
  exact (binderInv_runOps ops initialAddonState s' hinv0 h).2

/-- C2 witness: rebind, unbind, rebind again leaves one active subscription
per event type. -/
theorem c2_single_subscription_per_event_witness :
    (activeSubsOfType demoBinderState .commandStarted).length ≤ 1 ∧
    (activeSubsOfType demoBinderState .commandFinished).length ≤ 1 ∧
    (activeSubsOfType demoBinderState .commandInvalidated).length ≤ 1 ∧
    (activeSubsOfType demoBinderState .currentCommandInvalidated).length ≤ 1 :=
  ⟨c2_single_subscription_per_event demoBinderOps demoBinderState rfl .commandStarted,
   c2_single_subscription_per_event demoBinderOps demoBinderState rfl .commandFinished,
   c2_single_subscription_per_event demoBinderOps demoBinderState rfl .commandInvalidated,
   c2_single_subscription_per_event demoBinderOps demoBinderState rfl .currentCommandInvalidated⟩

/-! ## C3: disposing every decoration empties the registry -/

theorem mapWF_of_b (s : AddonState) (h : mapWFb s = true) : MapWF s := by
  unfold mapWFb at h
  rw [Bool.and_eq_true, decide_eq_true_eq, List.all_eq_true] at h
  refine ⟨h.1, ?_⟩
  intro p hp
  have h2 := h.2 p hp
  cases hl : alLookup s.decos p.2.decoration with
  | none =>
      rw [hl] at h2
      cases h2
  | some d =>
      rw [hl] at h2
      simp only [Bool.and_eq_true, beq_iff_eq, Bool.not_eq_true'] at h2
      exact ⟨d, rfl, h2.1.1, h2.1.2, h2.2⟩

/-- Disposing any decoration preserves map well-formedness. -/
theorem mapWF_dispose (s : AddonState) (id : Nat) (h : MapWF s) :
    MapWF (disposeDecoration s id) := by
  cases hl : alLookup s.decos id with
  | none =>
      have he : disposeDecoration s id = s := by
        simp [disposeDecoration, hl]
      rw [he]
      exact h
  | some d =>
      cases hd : d.disposed with
      | true =>
          have he : disposeDecoration s id = s := by
            simp [disposeDecoration, hl, hd]
          rw [he]
          exact h
      | false =>
          cases hh : d.hasDisposeHook with
          | false =>
              have hmap : (disposeDecoration s id).decorationsMap = s.decorationsMap := by
                simp [disposeDecoration, hl, hd, hh]
              have hdecos : (disposeDecoration s id).decos =
                  alUpdate s.decos id (fun d => { d with disposed := true }) := by
                simp [disposeDecoration, hl, hd, hh]
              refine ⟨by rw [hmap]; exact h.1, ?_⟩
              intro p hp
              rw [hmap] at hp
              rcases h.2 p hp with ⟨d', hld', hhook', hmid', hlive'⟩
              have hne : ¬ p.2.decoration = id := by
                intro he
                rw [he, hl] at hld'
                injection hld' with h4
                rw [h4, hhook'] at hh
                cases hh
              refine ⟨d', ?_, hhook', hmid', hlive'⟩
              rw [hdecos, alLookup_update, if_neg hne]
              exact hld'
          | true =>
              have hmap : (disposeDecoration s id).decorationsMap =
                  alErase s.decorationsMap d.markerId := by
                simp [disposeDecoration, hl, hd, hh]
              have hdecos : (disposeDecoration s id).decos =
                  alUpdate s.decos id (fun d => { d with disposed := true }) := by
                simp [disposeDecoration, hl, hd, hh]
              constructor
              · rw [hmap]
                exact ((List.filter_sublist _).map Prod.fst).nodup h.1
              · intro p hp
                rw [hmap] at hp
                rcases mem_alErase.mp hp with ⟨hpmem, hpk⟩
                rcases h.2 p hpmem with ⟨d', hld', hhook', hmid', hlive'⟩
                have hne : ¬ p.2.decoration = id := by
                  intro he
                  rw [he, hl] at hld'
                  injection hld' with h4
                  exact hpk (by rw [h4]; exact hmid'.symm)
                refine ⟨d', ?_, hhook', hmid', hlive'⟩
                rw [hdecos, alLookup_update, if_neg hne]
                exact hld'

/-- Disposing the decoration of every map entry (over a snapshot of the map)
empties the map: each dispose deletes exactly its own entry. -/
theorem disposeAll_map (l : List (Nat × Entry)) :
    ∀ s : AddonState, MapWF s → s.decorationsMap = l →
      ((l.map (fun p => p.2.decoration)).foldl disposeDecoration s).decorationsMap = [] := by
  induction l with
  | nil =>
      intro s _ hmap
      simpa using hmap
  | cons p t ih =>
      intro s hwf hmap
      obtain ⟨d, hl, hhook, hmid, hlive⟩ :=
        hwf.2 p (by rw [hmap]; exact List.mem_cons_self _ _)
      have hs1map : (disposeDecoration s p.2.decoration).decorationsMap = t := by
        have he : (disposeDecoration s p.2.decoration).decorationsMap =
            alErase s.decorationsMap d.markerId := by
          simp [disposeDecoration, hl, hlive, hhook]
        rw [he, hmap, hmid]
        have hnd := hwf.1
        rw [hmap, List.map_cons, List.nodup_cons] at hnd
        exact alErase_cons_self p.1 p.2 t hnd.1
      have hs1wf : MapWF (disposeDecoration s p.2.decoration) :=
        mapWF_dispose s p.2.decoration hwf
      rw [List.map_cons, List.foldl_cons]
      exact ih _ hs1wf hs1map

/-- Disposing a decoration makes it disposed. -/
theorem decoDisposed_dispose_self (s : AddonState) (j : Nat) :
    decoDisposed (disposeDecoration s j) j := by
  intro d hd
  rw [disposeDecoration_decos_lookup, if_pos rfl] at hd
  cases hl : alLookup s.decos j with
  | none =>
      rw [hl] at hd
      cases hd
  | some d0 =>
      rw [hl] at hd
      injection hd with h2
      rw [← h2]

/-- Disposal of other decorations keeps a disposed decoration disposed. -/
theorem decoDisposed_mono_dispose (s : AddonState) (id j : Nat)
    (h : decoDisposed s id) : decoDisposed (disposeDecoration s j) id := by
  by_cases hj : id = j
  · rw [hj]
    exact decoDisposed_dispose_self s j
  · intro d hd
    rw [disposeDecoration_decos_lookup, if_neg hj] at hd
    exact h d hd

/-- A dispose pass over any id list keeps a disposed decoration disposed. -/
theorem decoDisposed_mono_disposeFold (ids : List Nat) :
    ∀ s : AddonState, ∀ id, decoDisposed s id →
      decoDisposed (ids.foldl disposeDecoration s) id := by
  induction ids with
  | nil => intro s id h; exact h
  | cons j t ih =>
      intro s id h
      rw [List.foldl_cons]
      exact ih _ id (decoDisposed_mono_dispose s id j h)

/-- A dispose pass never changes the placeholder reference. -/
theorem disposeFold_ref (ids : List Nat) :
    ∀ s : AddonState,
      (ids.foldl disposeDecoration s).placeholderDecoration = s.placeholderDecoration := by
  induction ids with
  | nil => intro s; rfl
  | cons j t ih =>
      intro s
      rw [List.foldl_cons, ih, (disposeDecoration_fields s j).1]

/-- The `never` branch of the configuration-change handler, written out. -/
theorem configNever_eq (s : AddonState) (cap : Option CommandDetectionCapability)
    (host : Nat → Bool) (theme : ThemeColors) :
    onDecorationsEnabledConfigChanged s .never cap host theme =
      .ok (let s1 := match s.placeholderDecoration with
                     | some id => disposeDecoration s id
                     | none => s
           let s2 := (s1.decorationsMap.map (fun p => p.2.decoration)).foldl
             disposeDecoration s1
           { s2 with gutterVisible := false, overviewRulerDecorations := false,
                     decorationsDisabled := true }) := rfl

theorem register_disabled (s : AddonState) (cmd : TerminalCommand) (b : Bool)
    (host : Nat → Bool) (theme : ThemeColors) (h : s.decorationsDisabled = true) :
    registerCommandDecoration s cmd b host theme = .ok (none, s) := by
  simp [registerCommandDecoration, h]

theorem registerRun_disabled (s : AddonState) (cmd : TerminalCommand) (b : Bool)
    (host : Nat → Bool) (theme : ThemeColors) (h : s.decorationsDisabled = true) :
    registerRun s cmd b host theme = .ok s := by
  rw [registerRun, register_disabled s cmd b host theme h]
  rfl

/-- While decorations are disabled, the replay pass registers nothing. -/
theorem registerList_disabled (host : Nat → Bool) (theme : ThemeColors)
    (cmds : List TerminalCommand) :
    ∀ s : AddonState, s.decorationsDisabled = true →
      cmds.foldlM (fun s command => registerRun s command false host theme) s = .ok s := by
  induction cmds with
  | nil => intro s h; rfl
  | cons c t ih =>
      intro s h
      rw [List.foldlM_cons, registerRun_disabled s c false host theme h, except_bind_ok]
      exact ih s h

theorem disposeOldListeners_decoFields (s : AddonState) :
    (disposeOldListeners s).decos = s.decos ∧
    (disposeOldListeners s).decorationsMap = s.decorationsMap ∧
    (disposeOldListeners s).placeholderDecoration = s.placeholderDecoration ∧
    (disposeOldListeners s).terminal = s.terminal ∧
    (disposeOldListeners s).decorationsDisabled = s.decorationsDisabled ∧
    (disposeOldListeners s).overviewRulerDecorations = s.overviewRulerDecorations ∧
    (disposeOldListeners s).nextDecoId = s.nextDecoId := by
  unfold disposeOldListeners
  cases s.commandDetectionListeners <;> exact ⟨rfl, rfl, rfl, rfl, rfl, rfl, rfl⟩

theorem pushListener_decoFields (s : AddonState) (t : EventType) :
    (pushListener s t).decos = s.decos ∧
    (pushListener s t).decorationsMap = s.decorationsMap ∧
    (pushListener s t).placeholderDecoration = s.placeholderDecoration ∧
    (pushListener s t).terminal = s.terminal ∧
    (pushListener s t).decorationsDisabled = s.decorationsDisabled ∧
    (pushListener s t).overviewRulerDecorations = s.overviewRulerDecorations ∧
    (pushListener s t).nextDecoId = s.nextDecoId :=
  ⟨rfl, rfl, rfl, rfl, rfl, rfl, rfl⟩

/-- The first attach in the `both` branch runs while decorations are still
disabled: it replaces the subscriptions but changes no decoration state. -/
theorem addCDL_disabled_effect (s : AddonState) (capability : CommandDetectionCapability)
    (host : Nat → Bool) (theme : ThemeColors)
    (hdis : s.decorationsDisabled = true)
    (hexec : capability.executingCommandObject = none) :
    ∃ s' : AddonState, addCommandDetectionListeners s (some capability) host theme = .ok s' ∧
      s'.decos = s.decos ∧ s'.decorationsMap = s.decorationsMap ∧
      s'.placeholderDecoration = s.placeholderDecoration ∧
      s'.terminal = s.terminal ∧ s'.decorationsDisabled = true ∧
      s'.overviewRulerDecorations = s.overviewRulerDecorations ∧
      s'.nextDecoId = s.nextDecoId := by
  have hd0 := disposeOldListeners_decoFields s
  refine ⟨pushListener (pushListener (pushListener (pushListener
      { disposeOldListeners s with commandDetectionListeners := some ([] : List Nat) }
      .commandStarted) .commandFinished) .commandInvalidated) .currentCommandInvalidated,
    ?_, hd0.1, hd0.2.1, hd0.2.2.1, hd0.2.2.2.1, hd0.2.2.2.2.1.trans hdis,
    hd0.2.2.2.2.2.1, hd0.2.2.2.2.2.2⟩
  unfold addCommandDetectionListeners
  dsimp only
  rw [hexec]
  dsimp only
  rw [except_bind_pure]
  rw [registerList_disabled host theme capability.commands
    (pushListener { disposeOldListeners s with commandDetectionListeners := some ([] : List Nat) }
      .commandStarted)
    (hd0.2.2.2.2.1.trans hdis), except_bind_ok]
  rfl

/-- Forward evaluation of `registerCommandDecoration` when every guard
passes, the marker is present and the host creates the decoration. -/
theorem register_enabled_eq (s : AddonState) (cmd : TerminalCommand) (b : Bool)
    (host : Nat → Bool) (theme : ThemeColors) (m : Nat)
    (hterm : s.terminal = true) (hdis : s.decorationsDisabled = false)
    (hguard : ¬ (b = true ∧ cmd.genericMarkProperties.isSome = true))
    (hm : cmd.marker = some m) (hhost : host m = true) :
    registerCommandDecoration s cmd b host theme =
      .ok (some (clearPlaceholder s).nextDecoId, registerResultState s cmd b m theme) := by
  have hcond : ¬ (¬ s.terminal = true ∨ (b = true ∧ cmd.genericMarkProperties.isSome = true) ∨
      s.decorationsDisabled = true) := by
    rw [hterm, hdis]
    simp only [not_true, false_or, Bool.false_eq_true, or_false]
    exact hguard
  unfold registerCommandDecoration
  rw [if_neg hcond, hm]
  dsimp only
  rw [hhost]
  simp only [if_true]
  rfl

/-- When the referenced placeholder is already disposed, a successful final
registration only appends the fresh decoration and clears the reference. -/
theorem register_effect_cleared (s : AddonState) (cmd : TerminalCommand) (m : Nat)
    (host : Nat → Bool) (theme : ThemeColors)
    (hterm : s.terminal = true) (hdis : s.decorationsDisabled = false)
    (hm : cmd.marker = some m) (hhost : host m = true)
    (hpc : ∀ id, s.placeholderDecoration = some id → decoDisposed s id) :
    registerRun s cmd false host theme =
      .ok { s with placeholderDecoration := none
                   decos := s.decos ++ [(s.nextDecoId,
                     mkDecoration { s with placeholderDecoration := none } cmd false m theme)]
                   nextDecoId := s.nextDecoId + 1 } := by
  rw [registerRun, register_enabled_eq s cmd false host theme m hterm hdis (by simp) hm hhost]
  have hclear := clearPlaceholder_of_disposed s hpc
  unfold registerResultState
  rw [hclear]
  rfl

/-- The replay pass over the known finished commands (decorations enabled,
placeholder already disposed): appends one live, unhooked decoration per
command, with fresh consecutive ids, anchored at the command markers, in
order; the registry map is untouched. -/
theorem registerList_effect (host : Nat → Bool) (theme : ThemeColors)
    (cmds : List TerminalCommand) :
    ∀ s : AddonState, s.terminal = true → s.decorationsDisabled = false →
      (∀ c ∈ cmds, c.marker.isSome = true) → (∀ m, host m = true) →
      (∀ id, s.placeholderDecoration = some id → decoDisposed s id) →
      ∃ (s' : AddonState) (new : List (Nat × Decoration)),
        cmds.foldlM (fun s command => registerRun s command false host theme) s = .ok s' ∧
        s'.decos = s.decos ++ new ∧
        new.map Prod.fst = List.range' s.nextDecoId cmds.length ∧
        new.map (fun p => p.2.markerId) = cmds.filterMap (fun c => c.marker) ∧
        (∀ p ∈ new, p.2.disposed = false ∧ p.2.hasDisposeHook = false) ∧
        s'.decorationsMap = s.decorationsMap ∧
        s'.nextDecoId = s.nextDecoId + cmds.length ∧
        (∀ id, s'.placeholderDecoration = some id → decoDisposed s' id) := by
  induction cmds with
  | nil =>
      intro s hterm hdis hmk hhost hpc
      exact ⟨s, [], rfl, by simp, rfl, rfl, by simp, rfl, rfl, hpc⟩
  | cons c t ih =>
      intro s hterm hdis hmk hhost hpc
      obtain ⟨m, hm⟩ : ∃ m, c.marker = some m :=
        Option.isSome_iff_exists.mp (hmk c (List.mem_cons_self _ _))
      have hstep := register_effect_cleared s c m host theme hterm hdis hm (hhost m) hpc
      obtain ⟨s', new', hfold, hdecos, hkeys, hmarkers, hflags, hmap, hnext, hpc'⟩ :=
        ih { s with placeholderDecoration := none
                    decos := s.decos ++ [(s.nextDecoId,
                      mkDecoration { s with placeholderDecoration := none } c false m theme)]
                    nextDecoId := s.nextDecoId + 1 }
          hterm hdis (fun c hc => hmk c (List.mem_cons_of_mem _ hc)) hhost
          (fun id h => by cases h)
      refine ⟨s', (s.nextDecoId,
          mkDecoration { s with placeholderDecoration := none } c false m theme) :: new',
        ?_, ?_, ?_, ?_, ?_, ?_, ?_, hpc'⟩
      · rw [List.foldlM_cons, hstep, except_bind_ok]
        exact hfold
      · rw [hdecos]
        dsimp only
        rw [List.append_assoc]
        rfl
      · rw [List.map_cons, hkeys]
        dsimp only
        rw [List.length_cons, List.range'_succ]
      · rw [List.map_cons, hmarkers, List.filterMap_cons_some hm]
        rfl
      · intro p hp
        rcases List.mem_cons.mp hp with hp | hp
        · rw [hp]
          exact ⟨rfl, rfl⟩
        · exact hflags p hp
      · rw [hmap]
      · rw [hnext]
        dsimp only
        rw [List.length_cons]
        omega

/-- The rebind pass with decorations enabled, no executing command, markers
present and a cooperative host: re-registers one fresh decoration per known
finished command and leaves the registry map untouched. -/
theorem addCDL_enabled_effect (s : AddonState) (capability : CommandDetectionCapability)
    (host : Nat → Bool) (theme : ThemeColors)
    (hterm : s.terminal = true) (hdis : s.decorationsDisabled = false)
    (hexec : capability.executingCommandObject = none)
    (hmk : ∀ c ∈ capability.commands, c.marker.isSome = true)
    (hhost : ∀ m, host m = true)
    (hpc : ∀ id, s.placeholderDecoration = some id → decoDisposed s id) :
    ∃ (s' : AddonState) (new : List (Nat × Decoration)),
      addCommandDetectionListeners s (some capability) host theme = .ok s' ∧
      s'.decos = s.decos ++ new ∧
      new.map Prod.fst = List.range' s.nextDecoId capability.commands.length ∧
      new.map (fun p => p.2.markerId) = capability.commands.filterMap (fun c => c.marker) ∧
      (∀ p ∈ new, p.2.disposed = false ∧ p.2.hasDisposeHook = false) ∧
      s'.decorationsMap = s.decorationsMap := by
  have hd := disposeOldListeners_decoFields s
  obtain ⟨sg, new, hfold, hdecos, hkeys, hmarkers, hflags, hmap, hnext, hpcg⟩ :=
    registerList_effect host theme capability.commands
      (pushListener { disposeOldListeners s with commandDetectionListeners := some ([] : List Nat) }
        .commandStarted)
      (hd.2.2.2.1.trans hterm) (hd.2.2.2.2.1.trans hdis) hmk hhost
      (fun id h => by
        have h2 : s.placeholderDecoration = some id := by
          rw [← hd.2.2.1]
          exact h
        have h3 := hpc id h2
        intro d hd2
        exact h3 d (by rw [← hd.1]; exact hd2))
  refine ⟨pushListener (pushListener (pushListener sg .commandFinished) .commandInvalidated)
      .currentCommandInvalidated, new, ?_, ?_, ?_, hmarkers, hflags, ?_⟩
  · unfold addCommandDetectionListeners
    dsimp only
    rw [hexec]
    dsimp only
    rw [except_bind_pure, hfold, except_bind_ok]
    rfl
  · rw [show (pushListener (pushListener (pushListener sg .commandFinished) .commandInvalidated)
        .currentCommandInvalidated).decos = sg.decos from rfl, hdecos]
    rw [show (pushListener { disposeOldListeners s with
        commandDetectionListeners := some ([] : List Nat) } .commandStarted).decos =
        (disposeOldListeners s).decos from rfl, hd.1]
  · rw [hkeys]
    rw [show (pushListener { disposeOldListeners s with
        commandDetectionListeners := some ([] : List Nat) } .commandStarted).nextDecoId =
        (disposeOldListeners s).nextDecoId from rfl, hd.2.2.2.2.2.2]
  · rw [show (pushListener (pushListener (pushListener sg .commandFinished) .commandInvalidated)
        .currentCommandInvalidated).decorationsMap = sg.decorationsMap from rfl, hmap]
    rw [show (pushListener { disposeOldListeners s with
        commandDetectionListeners := some ([] : List Nat) } .commandStarted).decorationsMap =
        (disposeOldListeners s).decorationsMap from rfl, hd.2.1]

/-! ### Delivering the pending render callbacks -/

theorem renderDecoration_of_disposed (s : AddonState) (k : Nat)
    (h : decoDisposed s k) : renderDecoration s k = s := by
  cases hl : alLookup s.decos k with
  | none => simp [renderDecoration, hl]
  | some d => simp [renderDecoration, hl, h d hl]

theorem renderFold_disposed (keys : List Nat) :
    ∀ s : AddonState, (∀ k ∈ keys, decoDisposed s k) →
      keys.foldl renderDecoration s = s := by
  induction keys with
  | nil => intro s _; rfl
  | cons k t ih =>
      intro s h
      rw [List.foldl_cons, renderDecoration_of_disposed s k (h k (List.mem_cons_self _ _))]
      exact ih s (fun k2 hk2 => h k2 (List.mem_cons_of_mem _ hk2))

theorem renderDecoration_eq_of_new (s : AddonState) (k : Nat) (d : Decoration)
    (hl : alLookup s.decos k = some d) (hlive : d.disposed = false)
    (hmap : alLookup s.decorationsMap d.markerId = none) :
    renderDecoration s k =
      { s with decos := alUpdate s.decos k (fun d => { d with hasDisposeHook := true })
               decorationsMap := s.decorationsMap ++ [(d.markerId,
                 { decoration := k, exitCode := d.cmd.exitCode
                   genericMarkProperties := d.cmd.genericMarkProperties })] } := by
  simp [renderDecoration, hl, hlive, hmap]

/-- Rendering a batch of fresh decorations (distinct ids, distinct fresh
markers) appends exactly one map entry per decoration, in order. -/
theorem renderFold_new (new : List (Nat × Decoration)) :
    ∀ s : AddonState,
      (∀ p ∈ new, alLookup s.decos p.1 = some p.2) →
      (∀ p ∈ new, p.2.disposed = false) →
      (new.map Prod.fst).Nodup →
      (new.map (fun p => p.2.markerId)).Nodup →
      (∀ p ∈ new, alLookup s.decorationsMap p.2.markerId = none) →
      ((new.map Prod.fst).foldl renderDecoration s).decorationsMap.map Prod.fst =
        s.decorationsMap.map Prod.fst ++ new.map (fun p => p.2.markerId) := by
  induction new with
  | nil =>
      intro s _ _ _ _ _
      simp
  | cons p t ih =>
      intro s hlook hlive hkn hmn hmapn
      rw [List.map_cons, List.map_cons, List.foldl_cons,
        renderDecoration_eq_of_new s p.1 p.2 (hlook p (List.mem_cons_self _ _))
          (hlive p (List.mem_cons_self _ _)) (hmapn p (List.mem_cons_self _ _))]
      rw [List.map_cons, List.nodup_cons] at hkn
      rw [List.map_cons, List.nodup_cons] at hmn
      have ht := ih
        { s with decos := alUpdate s.decos p.1 (fun d => { d with hasDisposeHook := true })
                 decorationsMap := s.decorationsMap ++ [(p.2.markerId,
                   { decoration := p.1, exitCode := p.2.cmd.exitCode
                     genericMarkProperties := p.2.cmd.genericMarkProperties })] }
        ?_ (fun q hq => hlive q (List.mem_cons_of_mem _ hq)) hkn.2 hmn.2 ?_
      · rw [ht]
        dsimp only
        rw [List.map_append, List.append_assoc]
        rfl
      · intro q hq
        dsimp only
        rw [alLookup_update]
        have hne : ¬ q.1 = p.1 := by
          intro he
          exact hkn.1 (he ▸ List.mem_map.mpr ⟨q, hq, rfl⟩)
        rw [if_neg hne]
        exact hlook q (List.mem_cons_of_mem _ hq)
      · intro q hq
        dsimp only
        rw [alLookup_append_of_none _ (hmapn q (List.mem_cons_of_mem _ hq)), alLookup_cons]
        have hne : ¬ p.2.markerId = q.2.markerId := by
          intro he
          exact hmn.1 (he ▸ List.mem_map.mpr ⟨q, hq, rfl⟩)
        rw [if_neg hne]
        rfl

/-- After disposing every old decoration and registering a fresh batch,
delivering all pending render callbacks populates the empty registry with
exactly the markers of the batch, in order. -/
theorem renderAll_repopulates (s' : AddonState) (old new : List (Nat × Decoration)) (n0 : Nat)
    (hdecos : s'.decos = old ++ new)
    (holdd : ∀ p ∈ old, p.2.disposed = true)
    (holdb : ∀ k ∈ old.map Prod.fst, k < n0)
    (hkeys : new.map Prod.fst = List.range' n0 new.length)
    (hmn : (new.map (fun p => p.2.markerId)).Nodup)
    (hlive : ∀ p ∈ new, p.2.disposed = false)
    (hmap : s'.decorationsMap = []) :
    (renderAll s').decorationsMap.map Prod.fst = new.map (fun p => p.2.markerId) := by
  unfold renderAll
  rw [hdecos, List.map_append, List.foldl_append]
  have hold : (old.map Prod.fst).foldl renderDecoration s' = s' := by
    apply renderFold_disposed
    intro k hk d hd
    cases hlo : alLookup old k with
    | none =>
        rw [alLookup_eq_none] at hlo
        exact absurd hk hlo
    | some d0 =>
        rw [hdecos, alLookup_append_of_some _ hlo] at hd
        injection hd with h2
        rw [← h2]
        exact holdd _ (mem_of_alLookup hlo)
  rw [hold]
  have hnodupkeys : (new.map Prod.fst).Nodup := by
    rw [hkeys]
    exact List.nodup_range' n0 new.length
  have hlookups : ∀ p ∈ new, alLookup s'.decos p.1 = some p.2 := by
    intro p hp
    rw [hdecos]
    have hnone : alLookup old p.1 = none := by
      rw [alLookup_eq_none]
      intro hmem
      have hlt := holdb _ hmem
      have hin : p.1 ∈ List.range' n0 new.length := by
        rw [← hkeys]
        exact List.mem_map.mpr ⟨p, hp, rfl⟩
      rw [List.mem_range'_1] at hin
      omega
    rw [alLookup_append_of_none _ hnone]
    exact alLookup_of_mem_nodup hnodupkeys hp
  have hfin := renderFold_new new s' hlookups hlive hnodupkeys hmn
    (by intro p hp; rw [hmap]; rfl)
  rw [hfin, hmap]
  rfl

/-- Effect of the configuration change to `never`: dispose everything; the
map empties, the placeholder decoration is disposed, but the reference field
is left as it was. -/
theorem configNever_effect (s : AddonState) (cap : Option CommandDetectionCapability)
    (host : Nat → Bool) (theme : ThemeColors) (s' : AddonState)
    (hwf : MapWF s)
    (h : onDecorationsEnabledConfigChanged s .never cap host theme = .ok s') :
    s'.decorationsMap = [] ∧
    (∀ id, s.placeholderDecoration = some id → decoDisposed s' id) ∧
    s'.placeholderDecoration = s.placeholderDecoration ∧
    s'.decorationsDisabled = true := by
  rw [configNever_eq] at h
  injection h with h2
  cases hp : s.placeholderDecoration with
  | none =>
      have hs1 : (match s.placeholderDecoration with
                  | some id => disposeDecoration s id
                  | none => s) = s := by rw [hp]
      rw [hs1] at h2
      refine ⟨?_, ?_, ?_, ?_⟩
      · rw [← h2]
        exact disposeAll_map s.decorationsMap s hwf rfl
      · intro id hid
        cases hid
      · rw [← h2]
        exact (disposeFold_ref _ s).trans hp
      · rw [← h2]
  | some id =>
      have hs1 : (match s.placeholderDecoration with
                  | some id => disposeDecoration s id
                  | none => s) = disposeDecoration s id := by rw [hp]
      rw [hs1] at h2
      have hs1wf := mapWF_dispose s id hwf
      refine ⟨?_, ?_, ?_, ?_⟩
      · rw [← h2]
        exact disposeAll_map (disposeDecoration s id).decorationsMap
          (disposeDecoration s id) hs1wf rfl
      · intro id2 hid2
        injection hid2 with h3
        rw [← h2, ← h3]
        exact decoDisposed_mono_disposeFold _ _ id (decoDisposed_dispose_self s id)
      · rw [← h2]
        exact ((disposeFold_ref _ _).trans (disposeDecoration_fields s id).1).trans hp
      · rw [← h2]

/-- Effect of the configuration change back to `both` from a settled `never`
state (all decorations disposed, empty map): after the rebind pass and the
delivery of the pending render callbacks, the registry holds exactly the
markers of the known finished commands, in order. -/
theorem configNeverToBoth_effect (s : AddonState) (capability : CommandDetectionCapability)
    (host : Nat → Bool) (theme : ThemeColors) (s'' : AddonState)
    (hterm : s.terminal = true) (hdisab : s.decorationsDisabled = true)
    (hsmap : s.decorationsMap = [])
    (hall : ∀ p ∈ s.decos, p.2.disposed = true)
    (hbound : ∀ k ∈ decoKeys s, k < s.nextDecoId)
    (hexec : capability.executingCommandObject = none)
    (hmk : ∀ c ∈ capability.commands, c.marker.isSome = true)
    (hnodup : (capability.commands.filterMap (fun c => c.marker)).Nodup)
    (hhost : ∀ m, host m = true)
    (h : onDecorationsEnabledConfigChanged s .both (some capability) host theme = .ok s'') :
    (renderAll s'').decorationsMap.map Prod.fst =
      capability.commands.filterMap (fun c => c.marker) := by
  unfold onDecorationsEnabledConfigChanged at h
  dsimp only at h
  have hid1 : (match s.placeholderDecoration with
               | some id => disposeDecoration s id
               | none => s) = s := by
    cases hp : s.placeholderDecoration with
    | none => rfl
    | some id =>
        cases hl : alLookup s.decos id with
        | none => simp [disposeDecoration, hl]
        | some d =>
            have hd : d.disposed = true := hall _ (mem_of_alLookup hl)
            simp [disposeDecoration, hl, hd]
  rw [hid1, hsmap] at h
  simp only [List.map_nil, List.foldl_nil] at h
  unfold updateDecorationVisibility attachToCommandCapability
    updateGutterDecorationVisibility at h
  dsimp only at h
  obtain ⟨sd, heq1, hdecos1, hmap1, href1, hterm1, hdis1, hruler1, hnext1⟩ :=
    addCDL_disabled_effect { s with gutterVisible := true } capability host theme hdisab hexec
  rw [heq1, except_bind_ok] at h
  obtain ⟨sg, new, heq2, hdecos2, hkeys2, hmarkers2, hflags2, hmap2⟩ :=
    addCDL_enabled_effect { sd with overviewRulerDecorations := true, decorationsDisabled := false }
      capability host theme (hterm1.trans hterm) rfl hexec hmk hhost
      (fun id hid => by
        intro d hd
        have hd2 : alLookup s.decos id = some d := by
          rw [← hdecos1]
          exact hd
        exact hall _ (mem_of_alLookup hd2))
  rw [heq2] at h
  injection h with h3
  have hlen : new.length = capability.commands.length := by
    have hl2 := congrArg List.length hkeys2
    rw [List.length_map, List.length_range'] at hl2
    exact hl2
  have hres := renderAll_repopulates s'' s.decos new s.nextDecoId
    (by rw [← h3, hdecos2]
        dsimp only
        rw [hdecos1])
    hall hbound
    (by rw [hkeys2, hlen]
        dsimp only
        rw [hnext1])
    (by rw [hmarkers2]; exact hnodup)
    (fun p hp => (hflags2 p hp).1)
    (by rw [← h3, hmap2]
        dsimp only
        rw [hmap1]
        dsimp only
        exact hsmap)
  rw [hres, hmarkers2]

/-- C3 counterexample: setting the visibility policy to `never` while one
rendered placeholder exists empties the registry, but the placeholder
reference is not `none` afterwards — the configuration-change handler only
disposes the decorations and never clears `_placeholderDecoration`, so the
"no placeholder" / "placeholder is none" part of the claim fails. -/
theorem c3_counterexample :
    demoRendered.decorationsMap.map Prod.fst = [10] ∧
    demoRendered.placeholderDecoration = some 0 ∧
    onDecorationsEnabledConfigChanged demoRendered .never none demoHost demoTheme =
      .ok demoNeverState ∧
    demoNeverState.decorationsMap = [] ∧
    ¬ demoNeverState.placeholderDecoration = none :=
  ⟨by decide, by decide, rfl, by decide, by decide⟩

/-- C3 amended: after the visibility policy is set to `never` (from any state
with a well-formed registry), the registry holds zero entries, decorations are
disabled, and the placeholder decoration — if one was referenced — is
disposed; the reference field itself is left unchanged rather than cleared.
When the policy is then set to `both` from such a settled `never` state (all
decorations disposed, empty registry, no executing command, markers present,
distinct and honoured by the host), the rebind pass re-registers the known
finished commands and, once the pending render callbacks are delivered, the
registry holds exactly that finished-command set, in order. -/
theorem c3_visibility_never_amended :
    (∀ (s : AddonState) (cap : Option CommandDetectionCapability) (host : Nat → Bool)
        (theme : ThemeColors) (s' : AddonState), mapWFb s = true →
      onDecorationsEnabledConfigChanged s .never cap host theme = .ok s' →
      s'.decorationsMap = [] ∧
      (∀ id, s.placeholderDecoration = some id → decoDisposed s' id) ∧
      s'.placeholderDecoration = s.placeholderDecoration ∧
      s'.decorationsDisabled = true) ∧
    (∀ (s : AddonState) (capability : CommandDetectionCapability) (host : Nat → Bool)
        (theme : ThemeColors) (s'' : AddonState),
      s.terminal = true → s.decorationsDisabled = true → s.decorationsMap = [] →
      (∀ p ∈ s.decos, p.2.disposed = true) →
      (∀ k ∈ decoKeys s, k < s.nextDecoId) →
      capability.executingCommandObject = none →
      (∀ c ∈ capability.commands, c.marker.isSome = true) →
      (capability.commands.filterMap (fun c => c.marker)).Nodup →
      (∀ m, host m = true) →
      onDecorationsEnabledConfigChanged s .both (some capability) host theme = .ok s'' →
      (renderAll s'').decorationsMap.map Prod.fst =
        capability.commands.filterMap (fun c => c.marker)) :=
  ⟨fun s cap host theme s' hwf h =>
     configNever_effect s cap host theme s' (mapWF_of_b s hwf) h,
   fun s capability host theme s'' hterm hdis hmap hall hbound hexec hmk hnodup hhost h =>
     configNeverToBoth_effect s capability host theme s'' hterm hdis hmap hall hbound hexec
       hmk hnodup hhost h⟩

/-- C3 witness: the amended theorem applied to the concrete
placeholder-then-never-then-both run. -/
theorem c3_visibility_never_amended_witness :
    demoNeverState.decorationsMap = [] ∧
    decoDisposed demoNeverState 0 ∧
    demoNeverState.decorationsDisabled = true ∧
    (renderAll demoRepopulated).decorationsMap.map Prod.fst = [20] := by
  have hA := c3_visibility_never_amended.1 demoRendered none demoHost demoTheme demoNeverState
    (by decide) rfl
  have hB := c3_visibility_never_amended.2 demoNeverState demoCap demoHost demoTheme
    demoRepopulated rfl rfl rfl (by decide) (by decide) rfl (by decide) (by decide)
    (fun m => rfl) rfl
  exact ⟨hA.1, hA.2.1 0 rfl, hA.2.2.2, hB.trans (by decide)⟩

/-! ### C8: the overview-ruler sub-option across enabled-mode transitions -/

theorem decoMono_refl (s : AddonState) : DecoMono s s :=
  ⟨fun _ d h => ⟨d, h, rfl⟩, fun _ hp => hp⟩

theorem decoMono_of_fields {s s' : AddonState} (h1 : s'.decos = s.decos)
    (h2 : s'.decorationsMap = s.decorationsMap) : DecoMono s s' :=
  ⟨fun _ d h => ⟨d, by rw [h1]; exact h, rfl⟩, fun p hp => by rw [h2] at hp; exact hp⟩

theorem decoMono_trans {a b c : AddonState} (h1 : DecoMono a b) (h2 : DecoMono b c) :
    DecoMono a c := by
  refine ⟨fun id d h => ?_, fun p hp => h1.2 p (h2.2 p hp)⟩
  obtain ⟨d1, hl1, ho1⟩ := h1.1 id d h
  obtain ⟨d2, hl2, ho2⟩ := h2.1 id d1 hl1
  exact ⟨d2, hl2, ho2.trans ho1⟩

theorem decoMono_dispose (s : AddonState) (j : Nat) : DecoMono s (disposeDecoration s j) := by
  refine ⟨fun id d h => ?_, fun p hp => disposeDecoration_map_mem s j p hp⟩
  rw [disposeDecoration_decos_lookup]
  by_cases hj : id = j
  · rw [if_pos hj, h]
    exact ⟨{ d with disposed := true }, rfl, rfl⟩
  · rw [if_neg hj]
    exact ⟨d, h, rfl⟩

theorem decoMono_clear (s : AddonState) : DecoMono s (clearPlaceholder s) := by
  unfold clearPlaceholder
  cases hp : s.placeholderDecoration with
  | none => exact decoMono_of_fields rfl rfl
  | some id => exact decoMono_trans (decoMono_dispose s id) (decoMono_of_fields rfl rfl)

theorem registerResultState_map (s : AddonState) (cmd : TerminalCommand) (b : Bool)
    (m : Nat) (theme : ThemeColors) :
    (registerResultState s cmd b m theme).decorationsMap =
      (clearPlaceholder s).decorationsMap := by
  unfold registerResultState
  cases b <;> rfl

theorem decoMono_registerResult (s : AddonState) (cmd : TerminalCommand) (b : Bool)
    (m : Nat) (theme : ThemeColors) : DecoMono s (registerResultState s cmd b m theme) := by
  refine decoMono_trans (decoMono_clear s) ⟨fun id d h => ?_, fun p hp => ?_⟩
  · rw [registerResultState_decos]
    exact ⟨d, alLookup_append_of_some _ h, rfl⟩
  · rw [registerResultState_map] at hp
    exact hp

theorem decoMono_register (s : AddonState) (cmd : TerminalCommand) (b : Bool)
    (host : Nat → Bool) (theme : ThemeColors) (r : Option Nat) (s' : AddonState)
    (h : registerCommandDecoration s cmd b host theme = .ok (r, s')) : DecoMono s s' := by
  rcases register_cases s cmd b host theme r s' h with ⟨_, _, hs⟩ |
    ⟨m, _, ⟨_, _, hs⟩ | ⟨_, _, hs⟩⟩
  · rw [hs]
    exact decoMono_refl s
  · rw [hs]
    exact decoMono_clear s
  · rw [hs]
    exact decoMono_registerResult s cmd b m theme

theorem decoMono_registerRun (s s' : AddonState) (cmd : TerminalCommand) (b : Bool)
    (host : Nat → Bool) (theme : ThemeColors)
    (h : registerRun s cmd b host theme = .ok s') : DecoMono s s' := by
  rw [registerRun] at h
  cases hr : registerCommandDecoration s cmd b host theme with
  | error m =>
      rw [hr] at h
      cases h
  | ok p =>
      rw [hr] at h
      have h2 : Except.ok (ε := String) p.2 = Except.ok s' := h
      injection h2 with h3
      exact h3 ▸ decoMono_register s cmd b host theme p.1 p.2 (by rw [hr])

theorem decoMono_registerFold (host : Nat → Bool) (theme : ThemeColors)
    (cmds : List TerminalCommand) :
    ∀ s s' : AddonState,
      cmds.foldlM (fun s command => registerRun s command false host theme) s = .ok s' →
      DecoMono s s' := by
  induction cmds with
  | nil =>
      intro s s' h
      injection h with h2
      rw [← h2]
      exact decoMono_refl s
  | cons c t ih =>
      intro s s' h
      rw [List.foldlM_cons] at h
      cases hr : registerRun s c false host theme with
      | error m =>
          rw [hr, except_bind_error] at h
          cases h
      | ok s1 =>
          rw [hr, except_bind_ok] at h
          exact decoMono_trans (decoMono_registerRun s s1 c false host theme hr) (ih s1 s' h)

/-- The post-dispose tail of the rebind pass preserves the stored decorations
(options included) and only shrinks the registry map. -/
theorem decoMono_tail (s1 : AddonState) (cmds : List TerminalCommand)
    (host : Nat → Bool) (theme : ThemeColors) (s' : AddonState)
    (h : (do
        let s := pushListener s1 .commandStarted
        let s ← cmds.foldlM (fun s command => registerRun s command false host theme) s
        let s := pushListener s .commandFinished
        let s := pushListener s .commandInvalidated
        let s := pushListener s .currentCommandInvalidated
        pure s : Except String AddonState) = .ok s') :
    DecoMono s1 s' := by
  dsimp only at h
  cases hfold : cmds.foldlM (fun s command => registerRun s command false host theme)
      (pushListener s1 .commandStarted) with
  | error m =>
      rw [hfold, except_bind_error] at h
      cases h
  | ok s3 =>
      rw [hfold, except_bind_ok] at h
      injection h with h2
      refine decoMono_trans (decoMono_of_fields (pushListener_decoFields s1 .commandStarted).1
        (pushListener_decoFields s1 .commandStarted).2.1) ?_
      refine decoMono_trans (decoMono_registerFold host theme cmds _ s3 hfold) ?_
      rw [← h2]
      exact decoMono_of_fields rfl rfl

/-- The body of `_addCommandDetectionListeners` after the initial dispose. -/
theorem decoMono_addCDL_core (t0 : AddonState) (capability : CommandDetectionCapability)
    (host : Nat → Bool) (theme : ThemeColors) (s' : AddonState)
    (h : (do
        let s := { t0 with commandDetectionListeners := some ([] : List Nat) }
        let s ←
          match capability.executingCommandObject with
          | some cmd =>
              if cmd.marker.isSome then registerRun s cmd true host theme else pure s
          | none => pure s
        let s := pushListener s .commandStarted
        let s ← capability.commands.foldlM
          (fun s command => registerRun s command false host theme) s
        let s := pushListener s .commandFinished
        let s := pushListener s .commandInvalidated
        let s := pushListener s .currentCommandInvalidated
        pure s : Except String AddonState) = .ok s') :
    DecoMono t0 s' := by
  dsimp only at h
  refine decoMono_trans (decoMono_of_fields rfl rfl :
    DecoMono t0 { t0 with commandDetectionListeners := some ([] : List Nat) }) ?_
  cases hexec : capability.executingCommandObject with
  | none =>
      rw [hexec] at h
      dsimp only at h
      rw [except_bind_pure] at h
      exact decoMono_tail _ capability.commands host theme s' h
  | some cmd =>
      rw [hexec] at h
      dsimp only at h
      cases hmk : cmd.marker.isSome with
      | false =>
          rw [hmk, if_neg (by simp : ¬ (false = true))] at h
          rw [except_bind_pure] at h
          exact decoMono_tail _ capability.commands host theme s' h
      | true =>
          rw [hmk, if_pos rfl] at h
          cases hreg : registerRun { t0 with commandDetectionListeners := some ([] : List Nat) }
              cmd true host theme with
          | error m =>
              rw [hreg, except_bind_error] at h
              cases h
          | ok s2 =>
              rw [hreg, except_bind_ok] at h
              exact decoMono_trans (decoMono_registerRun _ s2 cmd true host theme hreg)
                (decoMono_tail s2 capability.commands host theme s' h)

/-- A full rebind pass preserves the stored decorations (options included) and
only shrinks the registry map. -/
theorem addCDL_mono (s : AddonState) (cap : Option CommandDetectionCapability)
    (host : Nat → Bool) (theme : ThemeColors) (s' : AddonState)
    (h : addCommandDetectionListeners s cap host theme = .ok s') : DecoMono s s' := by
  unfold addCommandDetectionListeners at h
  cases cap with
  | none =>
      injection h with h2
      rw [← h2]
      exact decoMono_of_fields (disposeOldListeners_decoFields s).1
        (disposeOldListeners_decoFields s).2.1
  | some capability =>
      exact decoMono_trans (decoMono_of_fields (disposeOldListeners_decoFields s).1
        (disposeOldListeners_decoFields s).2.1)
        (decoMono_addCDL_core (disposeOldListeners s) capability host theme s' h)

theorem attach_mono (s : AddonState) (cap : Option CommandDetectionCapability)
    (host : Nat → Bool) (theme : ThemeColors) (s' : AddonState)
    (h : attachToCommandCapability s cap host theme = .ok s') : DecoMono s s' := by
  cases cap with
  | none =>
      unfold attachToCommandCapability at h
      injection h with h2
      rw [← h2]
      exact decoMono_refl s
  | some c => exact addCDL_mono s (some c) host theme s' h

/-- `_updateDecorationVisibility` with value `both`: the two attach calls only
flip the flags, replace the subscriptions and append fresh decorations. -/
theorem updateVisBoth_mono (s : AddonState) (cap : Option CommandDetectionCapability)
    (host : Nat → Bool) (theme : ThemeColors) (s' : AddonState)
    (h : updateDecorationVisibility s .both cap host theme = .ok s') : DecoMono s s' := by
  unfold updateDecorationVisibility at h
  dsimp only at h
  cases h1 : attachToCommandCapability (updateGutterDecorationVisibility s true)
      cap host theme with
  | error m =>
      rw [h1, except_bind_error] at h
      cases h
  | ok s1 =>
      rw [h1, except_bind_ok] at h
      refine decoMono_trans (decoMono_of_fields rfl rfl :
        DecoMono s (updateGutterDecorationVisibility s true)) ?_
      refine decoMono_trans (attach_mono _ cap host theme s1 h1) ?_
      refine decoMono_trans (decoMono_of_fields rfl rfl :
        DecoMono s1 { s1 with overviewRulerDecorations := true, decorationsDisabled := false }) ?_
      exact attach_mono _ cap host theme s' h

/-- `_updateDecorationVisibility` with value `overviewRuler` likewise leaves
the stored decorations untouched apart from the rebind pass. -/
theorem updateVisOR_mono (s : AddonState) (cap : Option CommandDetectionCapability)
    (host : Nat → Bool) (theme : ThemeColors) (s' : AddonState)
    (h : updateDecorationVisibility s .overviewRuler cap host theme = .ok s') :
    DecoMono s s' := by
  unfold updateDecorationVisibility at h
  dsimp only at h
  exact decoMono_trans (decoMono_of_fields rfl rfl :
    DecoMono s { updateGutterDecorationVisibility s false with
      overviewRulerDecorations := true, decorationsDisabled := false })
    (attach_mono _ cap host theme s' h)

/-! Stripping the overview-ruler options in the `gutter` branch. -/

theorem strip_lookup_self {ds : List (Nat × Decoration)} {k : Nat} {d2 : Decoration}
    (h : alLookup (alUpdate ds k (fun d => { d with rulerOpts := none })) k = some d2) :
    d2.rulerOpts = none := by
  rw [alLookup_update, if_pos rfl] at h
  cases hl : alLookup ds k with
  | none =>
      rw [hl] at h
      cases h
  | some d0 =>
      rw [hl] at h
      injection h with h2
      rw [← h2]

theorem strip_lookup_mono {ds : List (Nat × Decoration)} {k : Nat} (j : Nat)
    (hk : ∀ d2, alLookup ds k = some d2 → d2.rulerOpts = none) :
    ∀ d2, alLookup (alUpdate ds j (fun d => { d with rulerOpts := none })) k = some d2 →
      d2.rulerOpts = none := by
  intro d2 h
  by_cases hj : k = j
  · exact strip_lookup_self (hj ▸ h)
  · rw [alLookup_update, if_neg hj] at h
    exact hk d2 h

theorem alLookup_update_exists {α : Type} {l : List (Nat × α)} {k : Nat} {v : α} (j : Nat)
    (f : α → α) (h : alLookup l k = some v) :
    ∃ w, alLookup (alUpdate l j f) k = some w := by
  rw [alLookup_update]
  by_cases hj : k = j
  · rw [if_pos hj, h]
    exact ⟨f v, rfl⟩
  · rw [if_neg hj]
    exact ⟨v, h⟩

theorem stripFold_mono (l : List (Nat × Entry)) :
    ∀ (ds : List (Nat × Decoration)) (k : Nat),
      (∀ d2, alLookup ds k = some d2 → d2.rulerOpts = none) →
      ∀ d2, alLookup (l.foldl
          (fun (ds : List (Nat × Decoration)) (p : Nat × Entry) =>
            alUpdate ds p.2.decoration (fun d => { d with rulerOpts := none })) ds) k =
          some d2 →
        d2.rulerOpts = none := by
  induction l with
  | nil =>
      intro ds k hk d2 h
      exact hk d2 h
  | cons q t ih =>
      intro ds k hk d2 h
      rw [List.foldl_cons] at h
      exact ih _ k (strip_lookup_mono q.2.decoration hk) d2 h

theorem stripFold_self (l : List (Nat × Entry)) :
    ∀ (ds : List (Nat × Decoration)) (p : Nat × Entry), p ∈ l →
      ∀ d2, alLookup (l.foldl
          (fun (ds : List (Nat × Decoration)) (p : Nat × Entry) =>
            alUpdate ds p.2.decoration (fun d => { d with rulerOpts := none })) ds)
          p.2.decoration = some d2 →
        d2.rulerOpts = none := by
  induction l with
  | nil =>
      intro ds p hp
      cases hp
  | cons q t ih =>
      intro ds p hp d2 h
      rw [List.foldl_cons] at h
      rcases List.mem_cons.mp hp with hp | hp
      · rw [hp] at h
        exact stripFold_mono t _ _ (fun d3 h3 => strip_lookup_self h3) d2 h
      · exact ih _ p hp d2 h

theorem stripFold_exists (l : List (Nat × Entry)) :
    ∀ (ds : List (Nat × Decoration)) (k : Nat) (v : Decoration), alLookup ds k = some v →
      ∃ w, alLookup (l.foldl
          (fun (ds : List (Nat × Decoration)) (p : Nat × Entry) =>
            alUpdate ds p.2.decoration (fun d => { d with rulerOpts := none })) ds) k =
        some w := by
  induction l with
  | nil =>
      intro ds k v h
      exact ⟨v, h⟩
  | cons q t ih =>
      intro ds k v h
      rw [List.foldl_cons]
      obtain ⟨w, hw⟩ := alLookup_update_exists q.2.decoration _ h
      exact ih _ k w hw

/-- The `gutter` branch of `_updateDecorationVisibility`, written as one
attach over the explicitly stripped state. -/
theorem updateVisGutter_eq (s : AddonState) (cap : Option CommandDetectionCapability)
    (host : Nat → Bool) (theme : ThemeColors) :
    updateDecorationVisibility s .gutter cap host theme =
      attachToCommandCapability
        { s with
          gutterVisible := true
          decos := s.decorationsMap.foldl
            (fun (ds : List (Nat × Decoration)) (p : Nat × Entry) =>
              alUpdate ds p.2.decoration (fun d => { d with rulerOpts := none }))
            (match s.placeholderDecoration with
             | some id => alUpdate s.decos id (fun d => { d with rulerOpts := none })
             | none => s.decos)
          overviewRulerDecorations := false
          decorationsDisabled := false } cap host theme := by
  unfold updateDecorationVisibility updateGutterDecorationVisibility
  dsimp only
  cases s.placeholderDecoration <;> rfl

/-- Every registry entry that survives an attach from the stripped state
references a decoration without overview-ruler options. -/
theorem stripped_entries_none (s s' : AddonState) (base : List (Nat × Decoration))
    (hbase : ∀ k, (∃ d, alLookup s.decos k = some d) → ∃ d, alLookup base k = some d)
    (hmono : DecoMono
      { s with
        gutterVisible := true
        decos := s.decorationsMap.foldl
          (fun (ds : List (Nat × Decoration)) (p : Nat × Entry) =>
            alUpdate ds p.2.decoration (fun d => { d with rulerOpts := none })) base
        overviewRulerDecorations := false
        decorationsDisabled := false } s')
    (hWF : MapWF s) :
    ∀ p ∈ s'.decorationsMap, rulerOptsAt s' p.2.decoration = none := by
  intro p hp
  have hpm : p ∈ s.decorationsMap := hmono.2 p hp
  obtain ⟨d, hld, _, _, _⟩ := hWF.2 p hpm
  obtain ⟨w, hw⟩ := hbase p.2.decoration ⟨d, hld⟩
  obtain ⟨w2, hw2⟩ := stripFold_exists s.decorationsMap base p.2.decoration w hw
  have hnone := stripFold_self s.decorationsMap base p hpm w2 hw2
  obtain ⟨w3, hw3, hop⟩ := hmono.1 p.2.decoration w2 hw2
  unfold rulerOptsAt
  rw [hw3]
  show w3.rulerOpts = none
  rw [hop]
  exact hnone

/-- The decoration referenced by the placeholder before a `gutter` transition
carries no overview-ruler options afterwards. -/
theorem stripped_placeholder_none (s s' : AddonState) (pid : Nat) (d0 : Decoration)
    (hld : alLookup s.decos pid = some d0)
    (hmono : DecoMono
      { s with
        gutterVisible := true
        decos := s.decorationsMap.foldl
          (fun (ds : List (Nat × Decoration)) (p : Nat × Entry) =>
            alUpdate ds p.2.decoration (fun d => { d with rulerOpts := none }))
          (alUpdate s.decos pid (fun d => { d with rulerOpts := none }))
        overviewRulerDecorations := false
        decorationsDisabled := false } s') :
    rulerOptsAt s' pid = none := by
  obtain ⟨w, hw⟩ := alLookup_update_exists pid (fun d => { d with rulerOpts := none }) hld
  have hwn : w.rulerOpts = none := strip_lookup_self hw
  obtain ⟨w2, hw2⟩ := stripFold_exists s.decorationsMap _ pid w hw
  have hn2 : w2.rulerOpts = none := stripFold_mono s.decorationsMap _ pid
    (fun d3 h3 => by
      rw [hw] at h3
      injection h3 with h4
      rw [← h4]
      exact hwn) w2 hw2
  obtain ⟨w3, hw3, hop⟩ := hmono.1 pid w2 hw2
  unfold rulerOptsAt
  rw [hw3]
  show w3.rulerOpts = none
  rw [hop]
  exact hn2

/-- A transition into `gutter` strips the overview-ruler options from the
decoration of every surviving registry entry and from the decoration the
placeholder referenced at entry. -/
theorem gutterTransition_strips (s : AddonState) (cap : Option CommandDetectionCapability)
    (host : Nat → Bool) (theme : ThemeColors) (s' : AddonState)
    (hwf : mapWFb s = true)
    (hph : ∀ id, s.placeholderDecoration = some id → id ∈ decoKeys s)
    (h : updateDecorationVisibility s .gutter cap host theme = .ok s') :
    (∀ p ∈ s'.decorationsMap, rulerOptsAt s' p.2.decoration = none) ∧
    (∀ id, s.placeholderDecoration = some id → rulerOptsAt s' id = none) := by
  rw [updateVisGutter_eq] at h
  have hWF := mapWF_of_b s hwf
  cases hpd : s.placeholderDecoration with
  | none =>
      rw [hpd] at h
      have hmono := attach_mono _ cap host theme s' h
      refine ⟨stripped_entries_none s s' s.decos (fun k hk => hk) hmono hWF, ?_⟩
      intro id hid
      cases hid
  | some pid =>
      rw [hpd] at h
      have hmono := attach_mono _ cap host theme s' h
      obtain ⟨d0, hld⟩ : ∃ d0, alLookup s.decos pid = some d0 := by
        cases hl : alLookup s.decos pid with
        | none => exact absurd (hph pid hpd) ((alLookup_eq_none s.decos pid).mp hl)
        | some d0 => exact ⟨d0, rfl⟩
      refine ⟨stripped_entries_none s s'
        (alUpdate s.decos pid (fun d => { d with rulerOpts := none }))
        (fun k hk => by
          obtain ⟨d, hd⟩ := hk
          exact alLookup_update_exists pid _ hd) hmono hWF, ?_⟩
      intro id hid
      injection hid with hid2
      rw [← hid2]
      exact stripped_placeholder_none s s' pid d0 hld hmono

/-- A transition into `both` keeps every surviving registry entry pointing at
its old decoration with its overview-ruler options unchanged. -/
theorem bothTransition_keeps (s : AddonState) (cap : Option CommandDetectionCapability)
    (host : Nat → Bool) (theme : ThemeColors) (s' : AddonState)
    (hwf : mapWFb s = true)
    (h : updateDecorationVisibility s .both cap host theme = .ok s') :
    ∀ p ∈ s'.decorationsMap, p ∈ s.decorationsMap ∧
      rulerOptsAt s' p.2.decoration = rulerOptsAt s p.2.decoration := by
  have hmono := updateVisBoth_mono s cap host theme s' h
  have hWF := mapWF_of_b s hwf
  intro p hp
  have hpm := hmono.2 p hp
  obtain ⟨d, hld, _, _, _⟩ := hWF.2 p hpm
  obtain ⟨d2, hl2, hop⟩ := hmono.1 p.2.decoration d hld
  refine ⟨hpm, ?_⟩
  unfold rulerOptsAt
  rw [hld, hl2]
  exact hop

/-- A transition into `overviewRuler` likewise leaves the options of every
surviving entry decoration unchanged. -/
theorem orTransition_keeps (s : AddonState) (cap : Option CommandDetectionCapability)
    (host : Nat → Bool) (theme : ThemeColors) (s' : AddonState)
    (hwf : mapWFb s = true)
    (h : updateDecorationVisibility s .overviewRuler cap host theme = .ok s') :
    ∀ p ∈ s'.decorationsMap, p ∈ s.decorationsMap ∧
      rulerOptsAt s' p.2.decoration = rulerOptsAt s p.2.decoration := by
  have hmono := updateVisOR_mono s cap host theme s' h
  have hWF := mapWF_of_b s hwf
  intro p hp
  have hpm := hmono.2 p hp
  obtain ⟨d, hld, _, _, _⟩ := hWF.2 p hpm
  obtain ⟨d2, hl2, hop⟩ := hmono.1 p.2.decoration d hld
  refine ⟨hpm, ?_⟩
  unfold rulerOptsAt
  rw [hld, hl2]
  exact hop

/-- C8 counterexample: from a `gutter`-mode state holding one live registry
entry whose decoration has no overview-ruler options, switching the visibility
policy to `both` does not attach overview-ruler options to that entry: the
entry still references decoration 0, whose options remain `none`, even though
`_showOverviewRulerDecorations` is now set; instead the pass creates two brand
new decorations (the ids grow from 1 to 3), contradicting both the
"attached to match the new mode" and the "without recreating the decorations"
parts of the claim. -/
theorem c8_counterexample :
    demoGutterState.overviewRulerDecorations = false ∧
    demoGutterState.decorationsDisabled = false ∧
    demoGutterState.gutterVisible = true ∧
    demoGutterState.decorationsMap.map (fun p => p.2.decoration) = [0] ∧
    rulerOptsAt demoGutterState 0 = none ∧
    updateDecorationVisibility demoGutterState .both (some demoCap) demoHost demoTheme =
      .ok demoBothState ∧
    demoBothState.overviewRulerDecorations = true ∧
    demoBothState.decorationsMap.map (fun p => p.2.decoration) = [0] ∧
    rulerOptsAt demoBothState 0 = none ∧
    demoGutterState.decos.length = 1 ∧
    demoBothState.decos.length = 3 :=
  ⟨by decide, by decide, by decide, by decide, by decide, rfl, by decide, by decide,
    by decide, by decide, by decide⟩

/-- C8 (amended): across transitions between the enabled modes, only the
`gutter` branch edits the options of existing decorations — it strips the
overview-ruler options from every surviving registry entry and from the
decoration the placeholder referenced.  Transitions into `both` or
`overviewRuler` never attach options to surviving pre-existing entries: each
surviving entry still references its old decoration with its overview-ruler
options unchanged (options appear only on the decorations freshly re-created
by the rebind pass). -/
theorem c8_ruler_amended (s : AddonState) (cap : Option CommandDetectionCapability)
    (host : Nat → Bool) (theme : ThemeColors) (s' : AddonState)
    (hwf : mapWFb s = true)
    (hph : ∀ id, s.placeholderDecoration = some id → id ∈ decoKeys s) :
    (updateDecorationVisibility s .gutter cap host theme = .ok s' →
      (∀ p ∈ s'.decorationsMap, rulerOptsAt s' p.2.decoration = none) ∧
      (∀ id, s.placeholderDecoration = some id → rulerOptsAt s' id = none)) ∧
    (updateDecorationVisibility s .both cap host theme = .ok s' →
      ∀ p ∈ s'.decorationsMap, p ∈ s.decorationsMap ∧
        rulerOptsAt s' p.2.decoration = rulerOptsAt s p.2.decoration) ∧
    (updateDecorationVisibility s .overviewRuler cap host theme = .ok s' →
      ∀ p ∈ s'.decorationsMap, p ∈ s.decorationsMap ∧
        rulerOptsAt s' p.2.decoration = rulerOptsAt s p.2.decoration) :=
  ⟨fun h => gutterTransition_strips s cap host theme s' hwf hph h,
   fun h => bothTransition_keeps s cap host theme s' hwf h,
   fun h => orTransition_keeps s cap host theme s' hwf h⟩

/-- C8 witness: the amended theorem applied to the concrete gutter-to-both
switch; the single surviving entry still references decoration 0 with
unchanged (absent) overview-ruler options. -/
theorem c8_ruler_amended_witness :
    (20, ({ decoration := 0, exitCode := some 0, genericMarkProperties := none } : Entry)) ∈
      demoGutterState.decorationsMap ∧
    rulerOptsAt demoBothState 0 = rulerOptsAt demoGutterState 0 := by
  have h := (c8_ruler_amended demoGutterState (some demoCap) demoHost demoTheme demoBothState
      (by decide)
      (by
        intro id hid
        have h0 : demoGutterState.placeholderDecoration = none := by decide
        rw [h0] at hid
        cases hid)).2.1
    rfl (20, { decoration := 0, exitCode := some 0, genericMarkProperties := none }) (by decide)
  exact ⟨h.1, h.2⟩

end DecorationAddon
